import Mathlib

set_option maxRecDepth 4000

/-!
A verification development for the Scheme environment-diagram generator.

The repository contains three near-duplicate interpreter variants
(`Grapher.py`, `Grapher2.py`, `Grapher3.py`).  Each one evaluates a small
Scheme subset while recording every environment frame and every closure it
creates; the variants differ in how the record is rendered (rendering is out
of scope here).

This file shallowly embeds the evaluator core:

* `SExpr` is the syntax produced by the external reader (`sexpdata`):
  numbers, symbols, nested lists.  Python `int`/`float` literals are both
  modelled as rationals.
* `Environment` is the `Environment` class: a frame with `env_id`, an
  optional `parent` and an insertion-ordered binding table (a Python dict is
  modelled as an association list with in-place overwrite).
* Parent links, which in Python are object references, are modelled as
  indices into the interpreter's `envs` list (the frame store); this is the
  standard arena reading of object identity and makes the aliasing of
  mutable frames explicit.
* `Closure` is the `Closure` class: the module-global `closure_counter`
  becomes the `closure_counter` field of the interpreter state, threaded
  through evaluation.
* `evalStep` is the body of `SchemeInterpreter.eval_expr` of `Grapher.py`,
  parameterised by the evaluator used for recursive calls; `evalExpr` ties
  the knot with a fuel parameter (the native Python call stack).  Failures
  that the spec names (`UnboundVariable`, `NotCallable`) and native Python
  failures (`ZeroDivisionError`, destructuring/type errors) are explicit
  `Err` values.
-/

/-- Syntax values produced by the external reader: numbers, symbols and
nested lists.  Python `int` and `float` literals are both modelled as `ℚ`. -/
inductive SExpr where
  | num : ℚ → SExpr
  | sym : String → SExpr
  | list : List SExpr → SExpr

/-- The four builtin procedures installed by `_initialize_builtins`. -/
inductive Builtin where
  | add
  | sub
  | mul
  | div
  deriving DecidableEq

/-- Runtime values: numbers, closure references (the index of the `Closure`
object in the interpreter's `closures` list, i.e. Python object identity),
builtin procedures, and `nil` for Python's `None` (returned for the empty
list, an empty `begin`/`let` body, and unmatched shapes). -/
inductive Value where
  | num : ℚ → Value
  | closure : Nat → Value
  | builtin : Builtin → Value
  | nil : Value
  deriving DecidableEq

/-- Errors that abort a run.  `unboundVariable` and `notCallable` are the
spec's taxonomy; `zeroDivision` is Python's `ZeroDivisionError` raised by
the unguarded `/` builtin; `native` covers the remaining native Python
failures (destructuring errors, type errors, bad indices); `fuel` is the
embedding's artefact for exhausting the recursion bound. -/
inductive Err where
  | unboundVariable : String → Err
  | notCallable : Value → Err
  | zeroDivision : Err
  | native : String → Err
  | fuel : Err
  deriving DecidableEq

/-- One frame of the `Environment` class: stable integer handle, optional
parent handle, and the binding table. -/
structure Environment where
  env_id : Nat
  parent : Option Nat
  bindings : List (String × Value)
  deriving DecidableEq

/-- A `Closure` record: the module-global counter value captured as `id`,
the parameter names, the (pre-merged) body expression and the handle of the
defining frame (`env_id` in `Grapher.py`, `def_env_id` in the other two
variants — only the attribute name differs). -/
structure Closure where
  id : Nat
  params : List String
  body : SExpr
  env_id : Nat

/-- The mutable state of a `SchemeInterpreter` run: the frame store `envs`,
the closure registry `closures`, and the module-global `closure_counter`
threaded explicitly. -/
structure InterpState where
  envs : List Environment
  closures : List Closure
  closure_counter : Nat

/-- Dictionary read: first binding for `name` (Python `var in self.bindings`
then `self.bindings[var]`). -/
def getBinding : List (String × Value) → String → Option Value
  | [], _ => none
  | (k, w) :: rest, name => if k = name then some w else getBinding rest name

/-- Dictionary write `self.bindings[var] = value`: overwrite in place if the
key exists (keeping its position), otherwise append. -/
def setBinding : List (String × Value) → String → Value → List (String × Value)
  | [], name, v => [(name, v)]
  | (k, w) :: rest, name, v =>
      if k = name then (k, v) :: rest else (k, w) :: setBinding rest name v

/-- `Environment.define`: insert or overwrite in this frame's own table. -/
def Environment.defineVar (f : Environment) (name : String) (v : Value) :
    Environment :=
  { f with bindings := setBinding f.bindings name v }

/-- `Environment.lookup`, store-based, with an explicit recursion bound on
the parent walk (the Python recursion through object references). -/
def lookupStep (envs : List Environment) : Nat → Nat → String → Except Err Value
  | 0, _, _ => .error .fuel
  | fl + 1, h, name =>
      match envs[h]? with
      | none => .error (.native "invalid frame handle")
      | some f =>
          match getBinding f.bindings name with
          | some v => .ok v
          | none =>
              match f.parent with
              | some p => lookupStep envs fl p name
              | none => .error (.unboundVariable name)

/-- `Environment.lookup(var)` called on the frame with handle `h`: walk the
parent chain for the nearest binding; `UnboundVariable` at the root.  The
bound `envs.length` never bites on well-formed stores (parent handles
strictly decrease). -/
def lookupVar (envs : List Environment) (h : Nat) (name : String) :
    Except Err Value :=
  lookupStep envs envs.length h name

/-- `Environment.update`, store-based: overwrite the binding in the nearest
frame that owns it, else recurse into the parent; `UnboundVariable` at the
root.  Returns the updated store. -/
def updateStep (envs : List Environment) :
    Nat → Nat → String → Value → Except Err (List Environment)
  | 0, _, _, _ => .error .fuel
  | fl + 1, h, name, v =>
      match envs[h]? with
      | none => .error (.native "invalid frame handle")
      | some f =>
          match getBinding f.bindings name with
          | some _ => .ok (envs.set h (f.defineVar name v))
          | none =>
              match f.parent with
              | some p => updateStep envs fl p name v
              | none => .error (.unboundVariable name)

/-- `Environment.update(var, value)` starting from handle `h`. -/
def updateVar (envs : List Environment) (h : Nat) (name : String) (v : Value) :
    Except Err (List Environment) :=
  updateStep envs envs.length h name v

/-- `env.define` on the frame with handle `h` inside the store. -/
def storeDefine (s : InterpState) (h : Nat) (name : String) (v : Value) :
    Except Err InterpState :=
  match s.envs[h]? with
  | none => .error (.native "invalid frame handle")
  | some f => .ok { s with envs := s.envs.set h (f.defineVar name v) }

/-- `SchemeInterpreter.new_env`: append a fresh frame whose handle is the
next unused index and whose parent is `parent`.  Total (never fails). -/
def newEnv (s : InterpState) (parent : Nat) : InterpState :=
  { s with
      envs := s.envs ++ [{ env_id := s.envs.length, parent := some parent,
                           bindings := [] }] }

/-- `SchemeInterpreter.new_closure` plus `Closure.__init__`: the new record
takes the current module-global counter as its `id`, the counter is bumped,
and the record is appended to the registry.  The returned value references
the record by its registry index. -/
def newClosure (s : InterpState) (params : List String) (body : SExpr)
    (envId : Nat) : Value × InterpState :=
  (Value.closure s.closures.length,
   { s with
       closures := s.closures ++
         [{ id := s.closure_counter, params := params, body := body,
            env_id := envId }],
       closure_counter := s.closure_counter + 1 })

/-- The `[p.value() for p in params]` comprehension: every parameter must be
a symbol, anything else raises a native `AttributeError`. -/
def symNames : List SExpr → Except Err (List String)
  | [] => .ok []
  | SExpr.sym x :: rest => (symNames rest).map (fun xs => x :: xs)
  | _ :: _ => .error (.native "parameter is not a symbol")

/-- Applying one of the builtin binary lambdas to evaluated arguments.
Wrong argument count raises a native `TypeError`; non-numeric operands raise
a native `TypeError`; `/` with a zero second argument raises
`ZeroDivisionError`; otherwise `/` is Python's true (fractional) division. -/
def applyBuiltin : Builtin → List Value → Except Err Value
  | b, [Value.num x, Value.num y] =>
      match b with
      | .add => .ok (.num (x + y))
      | .sub => .ok (.num (x - y))
      | .mul => .ok (.num (x * y))
      | .div => if y = 0 then .error .zeroDivision else .ok (.num (x / y))
  | _, [_, _] => .error (.native "unsupported operand type")
  | _, _ => .error (.native "wrong number of arguments")

/-- The `begin` / body loop of `eval_expr`: evaluate each expression in
order in frame `env`, keeping the last result (`None` when empty). -/
def evalSeq (ev : SExpr → Nat → InterpState → Except Err (Value × InterpState)) :
    List SExpr → Nat → InterpState → Value → Except Err (Value × InterpState)
  | [], _, s, acc => .ok (acc, s)
  | e :: rest, env, s, _ => do
      let (v, s₁) ← ev e env s
      evalSeq ev rest env s₁ v

/-- The `let` binding loop: each binding is destructured, its expression is
evaluated in the outer frame `env`, and the value is defined into the fresh
frame `letIdx`. -/
def bindLet (ev : SExpr → Nat → InterpState → Except Err (Value × InterpState)) :
    List SExpr → Nat → Nat → InterpState → Except Err InterpState
  | [], _, _, s => .ok s
  | b :: rest, env, letIdx, s =>
      match b with
      | SExpr.list [varE, valE] => do
          let (val, s₁) ← ev valE env s
          match varE with
          | SExpr.sym v => do
              let s₂ ← storeDefine s₁ letIdx v val
              bindLet ev rest env letIdx s₂
          | _ => .error (.native "let binding name is not a symbol")
      | _ => .error (.native "malformed let binding")

/-- The closure-application binding loop over `zip(proc.params, args)`:
each argument expression is evaluated in the caller's frame `env` and the
value is defined into the call frame `callIdx`.  `zip` silently truncates
to the shorter sequence. -/
def bindArgs (ev : SExpr → Nat → InterpState → Except Err (Value × InterpState)) :
    List (String × SExpr) → Nat → Nat → InterpState → Except Err InterpState
  | [], _, _, s => .ok s
  | (p, argE) :: rest, env, callIdx, s => do
      let (val, s₁) ← ev argE env s
      let s₂ ← storeDefine s₁ callIdx p val
      bindArgs ev rest env callIdx s₂

/-- The builtin-application argument loop: evaluate every argument in the
caller's frame, left to right. -/
def evalArgs (ev : SExpr → Nat → InterpState → Except Err (Value × InterpState)) :
    List SExpr → Nat → InterpState → Except Err (List Value × InterpState)
  | [], _, s => .ok ([], s)
  | a :: rest, env, s => do
      let (v, s₁) ← ev a env s
      let (vs, s₂) ← evalArgs ev rest env s₁
      .ok (v :: vs, s₂)

/-- The `(define var expr)` branch of `eval_expr`: destructure the two
arguments (a native error otherwise), evaluate the value expression in the
current frame, then `env.define` the name there.  The name must be a symbol
(checked, as in the source, only when `.value()` is taken — after the value
has been evaluated). -/
def evalDefine (ev : SExpr → Nat → InterpState → Except Err (Value × InterpState))
    (args : List SExpr) (env : Nat) (s : InterpState) :
    Except Err (Value × InterpState) :=
  match args with
  | [varE, valE] => do
      let (val, s₁) ← ev valE env s
      match varE with
      | SExpr.sym v => do
          let s₂ ← storeDefine s₁ env v val
          .ok (val, s₂)
      | _ => .error (.native "define name is not a symbol")
  | _ => .error (.native "define expects exactly two arguments")

/-- The `(lambda (params) body...)` branch of `eval_expr`: multiple body
expressions are pre-merged into one `(begin ...)` form; the closure records
`env` — the frame active where the lambda literal is evaluated — as its
defining frame.  Creates no frame and evaluates nothing. -/
def evalLambda (args : List SExpr) (env : Nat) (s : InterpState) :
    Except Err (Value × InterpState) :=
  match args with
  | [] => .error (.native "lambda is missing its parameter list")
  | paramsE :: bodyExprs =>
      match paramsE with
      | SExpr.list ps =>
          (symNames ps).map (fun params =>
            newClosure s params
              (match bodyExprs with
               | [b] => b
               | bs => SExpr.list (SExpr.sym "begin" :: bs)) env)
      | _ => .error (.native "lambda parameter list is not a list")

/-- The `(let ((var val) ...) body...)` branch of `eval_expr`: the child
frame is created first, each binding expression is evaluated in the *outer*
frame and defined into the child, then the body runs in the child. -/
def evalLet (ev : SExpr → Nat → InterpState → Except Err (Value × InterpState))
    (args : List SExpr) (env : Nat) (s : InterpState) :
    Except Err (Value × InterpState) :=
  match args with
  | [] => .error (.native "let is missing its binding list")
  | bindingsE :: bodyExprs =>
      match bindingsE with
      | SExpr.list bs => do
          let letIdx := s.envs.length
          let s₂ ← bindLet ev bs env letIdx (newEnv s env)
          evalSeq ev bodyExprs letIdx s₂ .nil
      | _ => .error (.native "let binding list is not a list")

/-- The `(set! var expr)` branch of `eval_expr`: evaluate the value in the
current frame, then `env.update` walks the parent chain and overwrites the
binding in the frame that owns it. -/
def evalSetBang (ev : SExpr → Nat → InterpState → Except Err (Value × InterpState))
    (args : List SExpr) (env : Nat) (s : InterpState) :
    Except Err (Value × InterpState) :=
  match args with
  | [varE, valE] => do
      let (val, s₁) ← ev valE env s
      match varE with
      | SExpr.sym v => do
          let envs' ← updateVar s₁.envs env v val
          .ok (val, { s₁ with envs := envs' })
      | _ => .error (.native "set! name is not a symbol")
  | _ => .error (.native "set! expects exactly two arguments")

/-- The application fallback of `eval_expr` (reached when the head matches
none of the five special-form keywords): evaluate the operator, then
dispatch — builtin procedures evaluate all arguments in the caller's frame
and apply natively; closures create a call frame whose parent is the
closure's defining frame (`self.envs[proc.env_id]`, bounds-checked exactly
like the Python index), bind `zip(params, args)`, and evaluate the stored
body there; anything else raises `NotCallable`. -/
def evalCall (ev : SExpr → Nat → InterpState → Except Err (Value × InterpState))
    (op : SExpr) (args : List SExpr) (env : Nat) (s : InterpState) :
    Except Err (Value × InterpState) := do
  let (proc, s₁) ← ev op env s
  match proc with
  | .builtin b => do
      let (vals, s₂) ← evalArgs ev args env s₁
      let v ← applyBuiltin b vals
      .ok (v, s₂)
  | .closure ci =>
      match s₁.closures[ci]? with
      | none => .error (.native "invalid closure reference")
      | some c =>
          if c.env_id < s₁.envs.length then do
            let callIdx := s₁.envs.length
            let s₃ ← bindArgs ev (c.params.zip args) env callIdx
              (newEnv s₁ c.env_id)
            ev c.body callIdx s₃
          else .error (.native "invalid frame handle")
  | _ => .error (.notCallable proc)

/-- One unfolding of `SchemeInterpreter.eval_expr` of `Grapher.py`, with
`ev` standing for the recursive calls.  Dispatch order follows the source:
numbers, symbols, empty list, then the `op == Symbol(keyword)` chain in
source order, then application.  A non-symbol head fails every keyword
comparison, so it reaches the application fallback directly. -/
def evalStep (ev : SExpr → Nat → InterpState → Except Err (Value × InterpState))
    (e : SExpr) (env : Nat) (s : InterpState) :
    Except Err (Value × InterpState) :=
  match e with
  | .num n => .ok (.num n, s)
  | .sym x => (lookupVar s.envs env x).map (fun v => (v, s))
  | .list [] => .ok (.nil, s)
  | .list (op :: args) =>
      match op with
      | SExpr.sym k =>
        if k = "define" then evalDefine ev args env s
        else if k = "lambda" then evalLambda args env s
        else if k = "begin" then evalSeq ev args env s .nil
        else if k = "let" then evalLet ev args env s
        else if k = "set!" then evalSetBang ev args env s
        else evalCall ev op args env s
      | _ => evalCall ev op args env s

/-- `SchemeInterpreter.eval_expr`: tie the recursive knot of `evalStep` with
a fuel bound standing for the native call stack. -/
def evalExpr : Nat → SExpr → Nat → InterpState → Except Err (Value × InterpState)
  | 0 => fun _ _ _ => .error .fuel
  | fl + 1 => evalStep (evalExpr fl)

/-- The binding table installed by `_initialize_builtins` in the global
frame. -/
def builtinBindings : List (String × Value) :=
  [("+", .builtin .add), ("-", .builtin .sub),
   ("*", .builtin .mul), ("/", .builtin .div)]

/-- `SchemeInterpreter.__init__`: a fresh interpreter owns the single global
frame (handle 0, no parent, the builtins) and an empty closure registry; the
module-global `closure_counter` is whatever the process has accumulated. -/
def initState (counter : Nat) : InterpState :=
  { envs := [{ env_id := 0, parent := none, bindings := builtinBindings }],
    closures := [], closure_counter := counter }

/-- `SchemeInterpreter.run` on an already-parsed program: evaluate each
top-level form in the global frame, in order, threading the state; the last
form's value is reported (`nil` for an empty program). -/
def runProgram (fl : Nat) (prog : List SExpr) (counter : Nat) :
    Except Err (Value × InterpState) :=
  evalSeq (evalExpr fl) prog 0 (initState counter) .nil

/-- The value component of a run's result. -/
def resultValue (r : Except Err (Value × InterpState)) : Except Err Value :=
  r.map (fun p => p.1)

/-- The final state of a run. -/
def resultState (r : Except Err (Value × InterpState)) : Except Err InterpState :=
  r.map (fun p => p.2)

/-- Does the head of an application match one of the five special-form
keywords tested by the `op == Symbol(...)` chain? -/
def isSpecialForm : SExpr → Bool
  | .sym k =>
      k == "define" || k == "lambda" || k == "begin" || k == "let" ||
        k == "set!"
  | _ => false

/-- Is the value one of the two callable shapes (builtin procedure or
closure reference)?  `callable(proc)` / `isinstance(proc, Closure)` in the
source. -/
def callableShape : Value → Bool
  | .builtin _ => true
  | .closure _ => true
  | _ => false

/-- Is the value one of the three variants named by the spec's `Value`
taxonomy (`Number`, `ClosureReference`, `BuiltinProcedure`)? -/
def isSpecValue : Value → Bool
  | .num _ => true
  | .closure _ => true
  | .builtin _ => true
  | .nil => false

/-- Is the error one of the two kinds in the spec's error taxonomy
(`UnboundVariable` or `NotCallable`)? -/
def specErrKind : Err → Bool
  | .unboundVariable _ => true
  | .notCallable _ => true
  | _ => false

/-- The parent chain of handles starting at `h` (bounded traversal; the
bound never bites on well-formed stores, where parent handles strictly
decrease). -/
def chainF (envs : List Environment) : Nat → Nat → List Nat
  | 0, _ => []
  | fl + 1, h =>
      h :: (match envs[h]? with
            | some f =>
                match f.parent with
                | some p => chainF envs fl p
                | none => []
            | none => [])

/-- The frame handle `h` followed by its ancestors up to the root. -/
def frameChain (envs : List Environment) (h : Nat) : List Nat :=
  chainF envs (h + 1) h

/-- The binding for `name` in the own table of the frame with handle `i`. -/
def bindingAt (envs : List Environment) (i : Nat) (name : String) :
    Option Value :=
  (envs[i]?).bind (fun f => getBinding f.bindings name)

/-- The nearest (most local) frame in the parent chain of `h` whose own
table binds `name`. -/
def nearestOwner (envs : List Environment) (h : Nat) (name : String) :
    Option Nat :=
  (frameChain envs h).find? (fun i => (bindingAt envs i name).isSome)

/-- Well-formedness of one frame record at store index `i`: its handle is
its index and its parent handle is strictly smaller. -/
def FrameOK (i : Nat) (f : Environment) : Prop :=
  f.env_id = i ∧ match f.parent with
                 | none => True
                 | some p => p < i

instance (i : Nat) (f : Environment) : Decidable (FrameOK i f) :=
  match hp : f.parent with
  | none => decidable_of_iff (f.env_id = i) (by simp [FrameOK, hp])
  | some p => decidable_of_iff (f.env_id = i ∧ p < i) (by simp [FrameOK, hp])

/-- Well-formedness of the frame store: every record's handle is its index
and parent handles strictly decrease (so the parent chain is finite and
acyclic). -/
def EnvsWF (envs : List Environment) : Prop :=
  ∀ i f, envs[i]? = some f → FrameOK i f

/-- Executable check for `EnvsWF`, for evaluating it on concrete stores. -/
def envsWFb (envs : List Environment) : Bool :=
  (List.range envs.length).all (fun i =>
    match envs[i]? with
    | some f => decide (FrameOK i f)
    | none => true)

/-- The append-only relation between interpreter states: frames are never
removed and keep their handle and parent, closure records are never removed
or changed, the counter advances exactly with the registry, and closures
appended after `s` carry the successive counter values. -/
structure StoreExtends (s s' : InterpState) : Prop where
  env_le : s.envs.length ≤ s'.envs.length
  env_meta : ∀ (i : Nat) (f : Environment), s.envs[i]? = some f →
    ∃ f' : Environment,
      s'.envs[i]? = some f' ∧ f'.env_id = f.env_id ∧ f'.parent = f.parent
  clos_le : s.closures.length ≤ s'.closures.length
  clos_pre : ∀ (i : Nat) (c : Closure),
      s.closures[i]? = some c → s'.closures[i]? = some c
  counter_eq : s'.closure_counter + s.closures.length
      = s.closure_counter + s'.closures.length
  new_ids : ∀ (i : Nat) (c : Closure),
      s'.closures[i]? = some c → s.closures.length ≤ i →
      c.id = s.closure_counter + (i - s.closures.length)

/-- Shift a closure record's handle (the module-global counter part). -/
def bumpClosure (k : Nat) (c : Closure) : Closure :=
  { c with id := c.id + k }

/-- Shift the module-global closure counter of a state by `k`: the frame
store is untouched, only closure `id`s and the counter move. -/
def bumpState (k : Nat) (s : InterpState) : InterpState :=
  { s with closures := s.closures.map (bumpClosure k),
           closure_counter := s.closure_counter + k }

/-- Shift an evaluation result by `k` (errors are unchanged: no error
mentions a closure `id`). -/
def bumpRes (k : Nat) (r : Except Err (Value × InterpState)) :
    Except Err (Value × InterpState) :=
  r.map (fun p => (p.1, bumpState k p.2))

/-- The `begin` / body loop of `Grapher2.py`'s `eval_expr`. -/
def evalSeq2 (ev : SExpr → Nat → InterpState → Except Err (Value × InterpState)) :
    List SExpr → Nat → InterpState → Value → Except Err (Value × InterpState)
  | [], _, s, acc => .ok (acc, s)
  | e :: rest, env, s, _ => do
      let (v, s₁) ← ev e env s
      evalSeq2 ev rest env s₁ v

/-- The `let` binding loop of `Grapher2.py`'s `eval_expr`. -/
def bindLet2 (ev : SExpr → Nat → InterpState → Except Err (Value × InterpState)) :
    List SExpr → Nat → Nat → InterpState → Except Err InterpState
  | [], _, _, s => .ok s
  | b :: rest, env, letIdx, s =>
      match b with
      | SExpr.list [varE, valE] => do
          let (val, s₁) ← ev valE env s
          match varE with
          | SExpr.sym v => do
              let s₂ ← storeDefine s₁ letIdx v val
              bindLet2 ev rest env letIdx s₂
          | _ => .error (.native "let binding name is not a symbol")
      | _ => .error (.native "malformed let binding")

/-- The closure-application binding loop of `Grapher2.py`'s `eval_expr`. -/
def bindArgs2 (ev : SExpr → Nat → InterpState → Except Err (Value × InterpState)) :
    List (String × SExpr) → Nat → Nat → InterpState → Except Err InterpState
  | [], _, _, s => .ok s
  | (p, argE) :: rest, env, callIdx, s => do
      let (val, s₁) ← ev argE env s
      let s₂ ← storeDefine s₁ callIdx p val
      bindArgs2 ev rest env callIdx s₂

/-- The builtin argument loop of `Grapher2.py`'s `eval_expr`. -/
def evalArgs2 (ev : SExpr → Nat → InterpState → Except Err (Value × InterpState)) :
    List SExpr → Nat → InterpState → Except Err (List Value × InterpState)
  | [], _, s => .ok ([], s)
  | a :: rest, env, s => do
      let (v, s₁) ← ev a env s
      let (vs, s₂) ← evalArgs2 ev rest env s₁
      .ok (v :: vs, s₂)

/-- The `(define var expr)` branch of `Grapher2.py`'s `eval_expr`. -/
def evalDefine2 (ev : SExpr → Nat → InterpState → Except Err (Value × InterpState))
    (args : List SExpr) (env : Nat) (s : InterpState) :
    Except Err (Value × InterpState) :=
  match args with
  | [varE, valE] => do
      let (val, s₁) ← ev valE env s
      match varE with
      | SExpr.sym v => do
          let s₂ ← storeDefine s₁ env v val
          .ok (val, s₂)
      | _ => .error (.native "define name is not a symbol")
  | _ => .error (.native "define expects exactly two arguments")

/-- The `(lambda (params) body...)` branch of `Grapher2.py`'s `eval_expr`. -/
def evalLambda2 (args : List SExpr) (env : Nat) (s : InterpState) :
    Except Err (Value × InterpState) :=
  match args with
  | [] => .error (.native "lambda is missing its parameter list")
  | paramsE :: bodyExprs =>
      match paramsE with
      | SExpr.list ps =>
          (symNames ps).map (fun params =>
            newClosure s params
              (match bodyExprs with
               | [b] => b
               | bs => SExpr.list (SExpr.sym "begin" :: bs)) env)
      | _ => .error (.native "lambda parameter list is not a list")

/-- The `(let ((var val) ...) body...)` branch of `Grapher2.py`'s
`eval_expr`. -/
def evalLet2 (ev : SExpr → Nat → InterpState → Except Err (Value × InterpState))
    (args : List SExpr) (env : Nat) (s : InterpState) :
    Except Err (Value × InterpState) :=
  match args with
  | [] => .error (.native "let is missing its binding list")
  | bindingsE :: bodyExprs =>
      match bindingsE with
      | SExpr.list bs => do
          let letIdx := s.envs.length
          let s₂ ← bindLet2 ev bs env letIdx (newEnv s env)
          evalSeq2 ev bodyExprs letIdx s₂ .nil
      | _ => .error (.native "let binding list is not a list")

/-- The `(set! var expr)` branch of `Grapher2.py`'s `eval_expr`. -/
def evalSetBang2 (ev : SExpr → Nat → InterpState → Except Err (Value × InterpState))
    (args : List SExpr) (env : Nat) (s : InterpState) :
    Except Err (Value × InterpState) :=
  match args with
  | [varE, valE] => do
      let (val, s₁) ← ev valE env s
      match varE with
      | SExpr.sym v => do
          let envs' ← updateVar s₁.envs env v val
          .ok (val, { s₁ with envs := envs' })
      | _ => .error (.native "set! name is not a symbol")
  | _ => .error (.native "set! expects exactly two arguments")

/-- The application fallback of `Grapher2.py`'s `eval_expr` (there the
defining frame field is spelled `def_env_id`). -/
def evalCall2 (ev : SExpr → Nat → InterpState → Except Err (Value × InterpState))
    (op : SExpr) (args : List SExpr) (env : Nat) (s : InterpState) :
    Except Err (Value × InterpState) := do
  let (proc, s₁) ← ev op env s
  match proc with
  | .builtin b => do
      let (vals, s₂) ← evalArgs2 ev args env s₁
      let v ← applyBuiltin b vals
      .ok (v, s₂)
  | .closure ci =>
      match s₁.closures[ci]? with
      | none => .error (.native "invalid closure reference")
      | some c =>
          if c.env_id < s₁.envs.length then do
            let callIdx := s₁.envs.length
            let s₃ ← bindArgs2 ev (c.params.zip args) env callIdx
              (newEnv s₁ c.env_id)
            ev c.body callIdx s₃
          else .error (.native "invalid frame handle")
  | _ => .error (.notCallable proc)

/-- One unfolding of `SchemeInterpreter.eval_expr` of `Grapher2.py`: same
dispatch chain as `Grapher.py` (numbers, symbols, empty list, the five
keywords in source order, then application). -/
def evalStep2 (ev : SExpr → Nat → InterpState → Except Err (Value × InterpState))
    (e : SExpr) (env : Nat) (s : InterpState) :
    Except Err (Value × InterpState) :=
  match e with
  | .num n => .ok (.num n, s)
  | .sym x => (lookupVar s.envs env x).map (fun v => (v, s))
  | .list [] => .ok (.nil, s)
  | .list (op :: args) =>
      match op with
      | SExpr.sym k =>
        if k = "define" then evalDefine2 ev args env s
        else if k = "lambda" then evalLambda2 args env s
        else if k = "begin" then evalSeq2 ev args env s .nil
        else if k = "let" then evalLet2 ev args env s
        else if k = "set!" then evalSetBang2 ev args env s
        else evalCall2 ev op args env s
      | _ => evalCall2 ev op args env s

/-- `SchemeInterpreter.eval_expr` of `Grapher2.py`. -/
def evalExpr2 : Nat → SExpr → Nat → InterpState → Except Err (Value × InterpState)
  | 0 => fun _ _ _ => .error .fuel
  | fl + 1 => evalStep2 (evalExpr2 fl)

/-- The `begin` / body loop of `Grapher3.py`'s `eval_expr`. -/
def evalSeq3 (ev : SExpr → Nat → InterpState → Except Err (Value × InterpState)) :
    List SExpr → Nat → InterpState → Value → Except Err (Value × InterpState)
  | [], _, s, acc => .ok (acc, s)
  | e :: rest, env, s, _ => do
      let (v, s₁) ← ev e env s
      evalSeq3 ev rest env s₁ v

/-- The `let` binding loop of `Grapher3.py`'s `eval_expr`. -/
def bindLet3 (ev : SExpr → Nat → InterpState → Except Err (Value × InterpState)) :
    List SExpr → Nat → Nat → InterpState → Except Err InterpState
  | [], _, _, s => .ok s
  | b :: rest, env, letIdx, s =>
      match b with
      | SExpr.list [varE, valE] => do
          let (val, s₁) ← ev valE env s
          match varE with
          | SExpr.sym v => do
              let s₂ ← storeDefine s₁ letIdx v val
              bindLet3 ev rest env letIdx s₂
          | _ => .error (.native "let binding name is not a symbol")
      | _ => .error (.native "malformed let binding")

/-- The closure-application binding loop of `Grapher3.py`'s `eval_expr`. -/
def bindArgs3 (ev : SExpr → Nat → InterpState → Except Err (Value × InterpState)) :
    List (String × SExpr) → Nat → Nat → InterpState → Except Err InterpState
  | [], _, _, s => .ok s
  | (p, argE) :: rest, env, callIdx, s => do
      let (val, s₁) ← ev argE env s
      let s₂ ← storeDefine s₁ callIdx p val
      bindArgs3 ev rest env callIdx s₂

/-- The builtin argument loop of `Grapher3.py`'s `eval_expr`. -/
def evalArgs3 (ev : SExpr → Nat → InterpState → Except Err (Value × InterpState)) :
    List SExpr → Nat → InterpState → Except Err (List Value × InterpState)
  | [], _, s => .ok ([], s)
  | a :: rest, env, s => do
      let (v, s₁) ← ev a env s
      let (vs, s₂) ← evalArgs3 ev rest env s₁
      .ok (v :: vs, s₂)

/-- The `(define var expr)` branch of `Grapher3.py`'s `eval_expr`. -/
def evalDefine3 (ev : SExpr → Nat → InterpState → Except Err (Value × InterpState))
    (args : List SExpr) (env : Nat) (s : InterpState) :
    Except Err (Value × InterpState) :=
  match args with
  | [varE, valE] => do
      let (val, s₁) ← ev valE env s
      match varE with
      | SExpr.sym v => do
          let s₂ ← storeDefine s₁ env v val
          .ok (val, s₂)
      | _ => .error (.native "define name is not a symbol")
  | _ => .error (.native "define expects exactly two arguments")

/-- The `(lambda (params) body...)` branch of `Grapher3.py`'s `eval_expr`. -/
def evalLambda3 (args : List SExpr) (env : Nat) (s : InterpState) :
    Except Err (Value × InterpState) :=
  match args with
  | [] => .error (.native "lambda is missing its parameter list")
  | paramsE :: bodyExprs =>
      match paramsE with
      | SExpr.list ps =>
          (symNames ps).map (fun params =>
            newClosure s params
              (match bodyExprs with
               | [b] => b
               | bs => SExpr.list (SExpr.sym "begin" :: bs)) env)
      | _ => .error (.native "lambda parameter list is not a list")

/-- The `(let ((var val) ...) body...)` branch of `Grapher3.py`'s
`eval_expr`. -/
def evalLet3 (ev : SExpr → Nat → InterpState → Except Err (Value × InterpState))
    (args : List SExpr) (env : Nat) (s : InterpState) :
    Except Err (Value × InterpState) :=
  match args with
  | [] => .error (.native "let is missing its binding list")
  | bindingsE :: bodyExprs =>
      match bindingsE with
      | SExpr.list bs => do
          let letIdx := s.envs.length
          let s₂ ← bindLet3 ev bs env letIdx (newEnv s env)
          evalSeq3 ev bodyExprs letIdx s₂ .nil
      | _ => .error (.native "let binding list is not a list")

/-- The `(set! var expr)` branch of `Grapher3.py`'s `eval_expr`. -/
def evalSetBang3 (ev : SExpr → Nat → InterpState → Except Err (Value × InterpState))
    (args : List SExpr) (env : Nat) (s : InterpState) :
    Except Err (Value × InterpState) :=
  match args with
  | [varE, valE] => do
      let (val, s₁) ← ev valE env s
      match varE with
      | SExpr.sym v => do
          let envs' ← updateVar s₁.envs env v val
          .ok (val, { s₁ with envs := envs' })
      | _ => .error (.native "set! name is not a symbol")
  | _ => .error (.native "set! expects exactly two arguments")

/-- The application fallback of `Grapher3.py`'s `eval_expr`. -/
def evalCall3 (ev : SExpr → Nat → InterpState → Except Err (Value × InterpState))
    (op : SExpr) (args : List SExpr) (env : Nat) (s : InterpState) :
    Except Err (Value × InterpState) := do
  let (proc, s₁) ← ev op env s
  match proc with
  | .builtin b => do
      let (vals, s₂) ← evalArgs3 ev args env s₁
      let v ← applyBuiltin b vals
      .ok (v, s₂)
  | .closure ci =>
      match s₁.closures[ci]? with
      | none => .error (.native "invalid closure reference")
      | some c =>
          if c.env_id < s₁.envs.length then do
            let callIdx := s₁.envs.length
            let s₃ ← bindArgs3 ev (c.params.zip args) env callIdx
              (newEnv s₁ c.env_id)
            ev c.body callIdx s₃
          else .error (.native "invalid frame handle")
  | _ => .error (.notCallable proc)

/-- One unfolding of `SchemeInterpreter.eval_expr` of `Grapher3.py`.  The
structural difference to the other two variants: the list case is guarded
by `isinstance(expr, list) and expr`, so an *empty* list is not handled
there and instead falls through to the final `return None` — hence the
empty-list branch sits last here, mirroring the fallthrough. -/
def evalStep3 (ev : SExpr → Nat → InterpState → Except Err (Value × InterpState))
    (e : SExpr) (env : Nat) (s : InterpState) :
    Except Err (Value × InterpState) :=
  match e with
  | .num n => .ok (.num n, s)
  | .sym x => (lookupVar s.envs env x).map (fun v => (v, s))
  | .list (op :: args) =>
      match op with
      | SExpr.sym k =>
        if k = "define" then evalDefine3 ev args env s
        else if k = "lambda" then evalLambda3 args env s
        else if k = "begin" then evalSeq3 ev args env s .nil
        else if k = "let" then evalLet3 ev args env s
        else if k = "set!" then evalSetBang3 ev args env s
        else evalCall3 ev op args env s
      | _ => evalCall3 ev op args env s
  | .list [] => .ok (.nil, s)

/-- `SchemeInterpreter.eval_expr` of `Grapher3.py`. -/
def evalExpr3 : Nat → SExpr → Nat → InterpState → Except Err (Value × InterpState)
  | 0 => fun _ _ _ => .error .fuel
  | fl + 1 => evalStep3 (evalExpr3 fl)

/-- `(define x 1) (define f (lambda () x)) (let ((x 2)) (f))` — the lexical
scoping test program. -/
def progLex : List SExpr :=
  [SExpr.list [SExpr.sym "define", SExpr.sym "x", SExpr.num 1],
   SExpr.list [SExpr.sym "define", SExpr.sym "f",
     SExpr.list [SExpr.sym "lambda", SExpr.list [], SExpr.sym "x"]],
   SExpr.list [SExpr.sym "let",
     SExpr.list [SExpr.list [SExpr.sym "x", SExpr.num 2]],
     SExpr.list [SExpr.sym "f"]]]

/-- `(let ((x 1) (y 2)) (set! x y) x)` — the let/set! frame-effect test. -/
def progLetSet : List SExpr :=
  [SExpr.list [SExpr.sym "let",
     SExpr.list [SExpr.list [SExpr.sym "x", SExpr.num 1],
                 SExpr.list [SExpr.sym "y", SExpr.num 2]],
     SExpr.list [SExpr.sym "set!", SExpr.sym "x", SExpr.sym "y"],
     SExpr.sym "x"]]

/-- `(1 2 3)` — application of a number. -/
def progNotCallable : List SExpr :=
  [SExpr.list [SExpr.num 1, SExpr.num 2, SExpr.num 3]]

/-- `(define g (lambda (a) a)) (g 1 z)` — one excess argument, and that
argument (`z`) is unbound, so it would fail if it were evaluated. -/
def progExtraArg : List SExpr :=
  [SExpr.list [SExpr.sym "define", SExpr.sym "g",
     SExpr.list [SExpr.sym "lambda", SExpr.list [SExpr.sym "a"], SExpr.sym "a"]],
   SExpr.list [SExpr.sym "g", SExpr.num 1, SExpr.sym "z"]]

/-- `(define g (lambda (a) a)) (g 1 (define q 5))` — the excess argument
would define `q` if it were evaluated. -/
def progExtraArgEffect : List SExpr :=
  [SExpr.list [SExpr.sym "define", SExpr.sym "g",
     SExpr.list [SExpr.sym "lambda", SExpr.list [SExpr.sym "a"], SExpr.sym "a"]],
   SExpr.list [SExpr.sym "g", SExpr.num 1,
     SExpr.list [SExpr.sym "define", SExpr.sym "q", SExpr.num 5]]]

/-- `(define f (lambda (a b) a)) (f 7)` — missing argument, unused excess
parameter. -/
def progMissingUnused : List SExpr :=
  [SExpr.list [SExpr.sym "define", SExpr.sym "f",
     SExpr.list [SExpr.sym "lambda",
       SExpr.list [SExpr.sym "a", SExpr.sym "b"], SExpr.sym "a"]],
   SExpr.list [SExpr.sym "f", SExpr.num 7]]

/-- `(define f2 (lambda (a b) b)) (f2 7)` — missing argument, the excess
parameter is used by the body. -/
def progMissingUsed : List SExpr :=
  [SExpr.list [SExpr.sym "define", SExpr.sym "f2",
     SExpr.list [SExpr.sym "lambda",
       SExpr.list [SExpr.sym "a", SExpr.sym "b"], SExpr.sym "b"]],
   SExpr.list [SExpr.sym "f2", SExpr.num 7]]

/-- `(define x (begin))` — stores Python `None` in a binding table. -/
def progDefineNil : List SExpr :=
  [SExpr.list [SExpr.sym "define", SExpr.sym "x", SExpr.list [SExpr.sym "begin"]]]

/-- `(define f (lambda () 1))` — creates exactly one closure. -/
def progOneClosure : List SExpr :=
  [SExpr.list [SExpr.sym "define", SExpr.sym "f",
     SExpr.list [SExpr.sym "lambda", SExpr.list [], SExpr.num 1]]]

/-- `(/ 1 0)` — division by zero. -/
def progDivZero : List SExpr :=
  [SExpr.list [SExpr.sym "/", SExpr.num 1, SExpr.num 0]]

/-- `(/ 1 2)` — fractional division. -/
def progDivHalf : List SExpr :=
  [SExpr.list [SExpr.sym "/", SExpr.num 1, SExpr.num 2]]

/-- `(let () 5)` — a bare `let`, used to exercise frame creation. -/
def letDemoExpr : SExpr :=
  SExpr.list [SExpr.sym "let", SExpr.list [], SExpr.num 5]

/-- The state after evaluating `letDemoExpr` in a fresh interpreter: the
root frame plus the (empty) `let` frame. -/
def letDemoFinal : InterpState :=
  { envs := [{ env_id := 0, parent := none, bindings := builtinBindings },
             { env_id := 1, parent := some 0, bindings := [] }],
    closures := [], closure_counter := 0 }

/-- A two-frame demonstration store: the root binds `x`, the child binds
nothing. -/
def demoEnvs : List Environment :=
  [{ env_id := 0, parent := none, bindings := [("x", Value.num 1)] },
   { env_id := 1, parent := some 0, bindings := [] }]

/-- The root frame of `demoEnvs`. -/
def demoRoot : Environment :=
  { env_id := 0, parent := none, bindings := [("x", Value.num 1)] }

/-- `(lambda () 7)` — a bare lambda literal. -/
def opLam7 : SExpr :=
  SExpr.list [SExpr.sym "lambda", SExpr.list [], SExpr.num 7]

/-- The closure record created by evaluating `opLam7` in a fresh
interpreter. -/
def closLam7 : Closure :=
  { id := 0, params := [], body := SExpr.num 7, env_id := 0 }

/-- The state after evaluating `opLam7` in a fresh interpreter. -/
def midLam7 : InterpState :=
  { envs := [{ env_id := 0, parent := none, bindings := builtinBindings }],
    closures := [closLam7], closure_counter := 1 }

/-- The state after evaluating the application `((lambda () 7))` in a
fresh interpreter: one call frame with the root as parent. -/
def finLam7 : InterpState :=
  { envs := [{ env_id := 0, parent := none, bindings := builtinBindings },
             { env_id := 1, parent := some 0, bindings := [] }],
    closures := [closLam7], closure_counter := 1 }

/-- The state after running `(define f (lambda () 1))` in a fresh
interpreter with the module-global counter at 0. -/
def oneClosureFinal : InterpState :=
  { envs := [{ env_id := 0, parent := none,
               bindings := builtinBindings ++ [("f", Value.closure 0)] }],
    closures := [{ id := 0, params := [], body := SExpr.num 1, env_id := 0 }],
    closure_counter := 1 }

/-- The counter-shift contract for an evaluator: starting the module-global
closure counter `k` higher shifts every recorded closure `id` by `k` and
changes nothing else (values, frames, errors). -/
def BumpOK (ev : SExpr → Nat → InterpState → Except Err (Value × InterpState)) :
    Prop :=
  ∀ k e env s, ev e env (bumpState k s) = bumpRes k (ev e env s)

/-- The invariant-preservation contract for an evaluator: from a valid
current frame in a well-formed store, success only ever extends the store
(`StoreExtends`) and keeps it well-formed. -/
def EvalOK (ev : SExpr → Nat → InterpState → Except Err (Value × InterpState)) :
    Prop :=
  ∀ e env s v s', env < s.envs.length → EnvsWF s.envs →
    ev e env s = .ok (v, s') → StoreExtends s s' ∧ EnvsWF s'.envs

theorem except_bind_ok {α β : Type} {x : Except Err α} {g : α → Except Err β}
    {r : β} : x >>= g = .ok r ↔ ∃ a, x = .ok a ∧ g a = .ok r := by
  cases x <;> simp [Bind.bind, Except.bind]

theorem except_map_ok {α β : Type} {x : Except Err α} {g : α → β} {r : β} :
    x.map g = .ok r ↔ ∃ a, x = .ok a ∧ g a = r := by
  cases x <;> simp [Except.map]

theorem envsWF_of_b {envs : List Environment} (h : envsWFb envs = true) :
    EnvsWF envs := by
  intro i f hif
  have hi : i < envs.length := by
    by_contra hge
    rw [List.getElem?_eq_none_iff.mpr (Nat.le_of_not_lt hge)] at hif
    cases hif
  have h2 := List.all_eq_true.mp h i (List.mem_range.mpr hi)
  simp only [hif] at h2
  exact of_decide_eq_true h2

theorem storeExtends_refl (s : InterpState) : StoreExtends s s := by
  refine ⟨le_refl _, ?_, le_refl _, ?_, rfl, ?_⟩
  · intro i f hif; exact ⟨f, hif, rfl, rfl⟩
  · intro i c hic; exact hic
  · intro i c hic hle
    rw [List.getElem?_eq_none_iff.mpr hle] at hic
    cases hic

theorem storeExtends_trans {s₁ s₂ s₃ : InterpState}
    (e₁ : StoreExtends s₁ s₂) (e₂ : StoreExtends s₂ s₃) :
    StoreExtends s₁ s₃ := by
  refine ⟨le_trans e₁.env_le e₂.env_le, ?_, le_trans e₁.clos_le e₂.clos_le,
    ?_, ?_, ?_⟩
  · intro i f hif
    obtain ⟨f', h1, h2, h3⟩ := e₁.env_meta i f hif
    obtain ⟨f'', g1, g2, g3⟩ := e₂.env_meta i f' h1
    exact ⟨f'', g1, by rw [g2, h2], by rw [g3, h3]⟩
  · intro i c hic; exact e₂.clos_pre i c (e₁.clos_pre i c hic)
  · have h₁ := e₁.counter_eq
    have h₂ := e₂.counter_eq
    have h₃ := e₁.clos_le
    omega
  · intro i c hic hle
    by_cases hi : i < s₂.closures.length
    · have h2 : s₂.closures[i]? = some s₂.closures[i] :=
        List.getElem?_eq_getElem hi
      have h3 := e₂.clos_pre i _ h2
      rw [hic] at h3
      injection h3 with h4
      exact e₁.new_ids i c (by rw [h2, h4]) hle
    · have h5 := e₂.new_ids i c hic (Nat.le_of_not_lt hi)
      have h₁ := e₁.counter_eq
      have h₂ := e₁.clos_le
      omega

theorem set_envs_ext {s : InterpState} {i : Nat} {f g : Environment}
    (hif : s.envs[i]? = some f)
    (hid : g.env_id = f.env_id) (hp : g.parent = f.parent) :
    StoreExtends s { s with envs := s.envs.set i g } ∧
    (EnvsWF s.envs → EnvsWF (s.envs.set i g)) ∧
    (s.envs.set i g).length = s.envs.length := by
  have hi : i < s.envs.length := by
    rw [List.getElem?_eq_some] at hif
    exact hif.1
  refine ⟨⟨by simp, ?_, le_refl _, fun _ _ hc => hc, rfl, ?_⟩, ?_, by simp⟩
  · intro j f' hjf
    by_cases hji : j = i
    · subst hji
      rw [hif] at hjf
      injection hjf with he
      subst he
      exact ⟨g, List.getElem?_set_self hi, hid, hp⟩
    · exact ⟨f', by rw [List.getElem?_set_ne (Ne.symm hji)]; exact hjf, rfl, rfl⟩
  · intro j c hjc hle
    rw [List.getElem?_eq_none_iff.mpr hle] at hjc
    cases hjc
  · intro hwf j f' hjf
    by_cases hji : j = i
    · subst hji
      rw [List.getElem?_set_self hi] at hjf
      injection hjf with he
      subst he
      have hok := hwf _ f hif
      unfold FrameOK at hok ⊢
      rw [hid, hp]
      exact hok
    · rw [List.getElem?_set_ne (Ne.symm hji)] at hjf
      exact hwf j f' hjf

theorem storeDefine_ok {s : InterpState} {h : Nat} {name : String} {v : Value}
    {s' : InterpState} (hd : storeDefine s h name v = .ok s') :
    ∃ f, s.envs[h]? = some f ∧
      s' = { s with envs := s.envs.set h (f.defineVar name v) } := by
  unfold storeDefine at hd
  cases hf : s.envs[h]? with
  | none => rw [hf] at hd; cases hd
  | some f =>
      rw [hf] at hd
      injection hd with h1
      exact ⟨f, rfl, h1.symm⟩

theorem storeDefine_ext {s : InterpState} {h : Nat} {name : String} {v : Value}
    {s' : InterpState} (hd : storeDefine s h name v = .ok s') :
    StoreExtends s s' ∧ (EnvsWF s.envs → EnvsWF s'.envs) ∧
    s'.envs.length = s.envs.length ∧ s'.closures = s.closures ∧
    s'.closure_counter = s.closure_counter := by
  obtain ⟨f, hif, rfl⟩ := storeDefine_ok hd
  obtain ⟨hext, hwf, hlen⟩ := set_envs_ext (g := f.defineVar name v) hif rfl rfl
  exact ⟨hext, hwf, hlen, rfl, rfl⟩

theorem updateStep_ok {envs : List Environment} :
    ∀ fl h name v envs', updateStep envs fl h name v = .ok envs' →
      ∃ i f, envs[i]? = some f ∧ envs' = envs.set i (f.defineVar name v) := by
  intro fl
  induction fl with
  | zero => intro h name v envs' hu; cases hu
  | succ fl ih =>
    intro h name v envs' hu
    unfold updateStep at hu
    split at hu
    next heq => cases hu
    next f heq =>
      split at hu
      next w hg =>
        injection hu with h1
        exact ⟨h, f, heq, h1.symm⟩
      next hg =>
        split at hu
        next p hp => exact ih p name v envs' hu
        next hp => cases hu

theorem updateVar_ext {s : InterpState} {env : Nat} {name : String} {v : Value}
    {envs' : List Environment} (hu : updateVar s.envs env name v = .ok envs') :
    StoreExtends s { s with envs := envs' } ∧
    (EnvsWF s.envs → EnvsWF envs') ∧ envs'.length = s.envs.length := by
  obtain ⟨i, f, hif, rfl⟩ := updateStep_ok _ env name v _ hu
  exact set_envs_ext hif rfl rfl

theorem newEnv_envs_length (s : InterpState) (p : Nat) :
    (newEnv s p).envs.length = s.envs.length + 1 := by
  simp [newEnv]

theorem newEnv_get_lt {s : InterpState} {p i : Nat} (hi : i < s.envs.length) :
    (newEnv s p).envs[i]? = s.envs[i]? := by
  simp [newEnv, List.getElem?_append, hi]

theorem newEnv_get_last (s : InterpState) (p : Nat) :
    (newEnv s p).envs[s.envs.length]? =
      some { env_id := s.envs.length, parent := some p, bindings := [] } := by
  simp [newEnv]

theorem newEnv_extends (s : InterpState) (p : Nat) :
    StoreExtends s (newEnv s p) := by
  refine ⟨by simp [newEnv], ?_, le_refl _, fun _ _ hc => hc, rfl, ?_⟩
  · intro i f hif
    have hi : i < s.envs.length := by
      rw [List.getElem?_eq_some] at hif
      exact hif.1
    exact ⟨f, by rw [newEnv_get_lt hi]; exact hif, rfl, rfl⟩
  · intro i c hic hle
    have hic' : s.closures[i]? = some c := hic
    rw [List.getElem?_eq_none_iff.mpr hle] at hic'
    cases hic'

theorem newEnv_wf {s : InterpState} {p : Nat} (hp : p < s.envs.length)
    (hwf : EnvsWF s.envs) : EnvsWF (newEnv s p).envs := by
  intro i f hif
  by_cases hi : i < s.envs.length
  · rw [newEnv_get_lt hi] at hif
    exact hwf i f hif
  · have hlt : i < s.envs.length + 1 := by
      have h2 : i < (newEnv s p).envs.length := by
        rw [List.getElem?_eq_some] at hif
        exact hif.1
      rw [newEnv_envs_length] at h2
      exact h2
    have hieq : i = s.envs.length := by omega
    subst hieq
    rw [newEnv_get_last] at hif
    injection hif with he
    subst he
    exact ⟨rfl, hp⟩

theorem newClosure_extends (s : InterpState) (params : List String)
    (body : SExpr) (e : Nat) :
    StoreExtends s (newClosure s params body e).2 := by
  refine ⟨le_refl _, fun i f hif => ⟨f, hif, rfl, rfl⟩, ?_, ?_, ?_, ?_⟩
  · show s.closures.length ≤ (s.closures ++ [_]).length
    simp
  · intro i c hic
    have hi : i < s.closures.length := by
      rw [List.getElem?_eq_some] at hic
      exact hic.1
    show (s.closures ++ [_])[i]? = some c
    rw [List.getElem?_append, if_pos hi]
    exact hic
  · simp only [newClosure, List.length_append, List.length_singleton]
    omega
  · intro i c hic hle
    have h2 : (s.closures ++
        [{ id := s.closure_counter, params := params, body := body,
           env_id := e }])[i]? = some c := hic
    rw [List.getElem?_append, if_neg (Nat.not_lt.mpr hle)] at h2
    cases hd : i - s.closures.length with
    | zero =>
      rw [hd] at h2
      injection h2 with he
      rw [← he]
      rfl
    | succ m =>
      rw [hd] at h2
      simp at h2

theorem evalSeq_exts {ev : SExpr → Nat → InterpState →
    Except Err (Value × InterpState)} (H : EvalOK ev) :
    ∀ es env s acc v s', env < s.envs.length → EnvsWF s.envs →
      evalSeq ev es env s acc = .ok (v, s') →
      StoreExtends s s' ∧ EnvsWF s'.envs := by
  intro es
  induction es with
  | nil =>
    intro env s acc v s' _ hwf hs
    unfold evalSeq at hs
    injection hs with h1
    rw [show s' = s from (congrArg Prod.snd h1).symm]
    exact ⟨storeExtends_refl s, hwf⟩
  | cons e rest ih =>
    intro env s acc v s' henv hwf hs
    unfold evalSeq at hs
    obtain ⟨⟨v₁, s₁⟩, h1, h2⟩ := except_bind_ok.mp hs
    obtain ⟨ext1, hwf1⟩ := H e env s v₁ s₁ henv hwf h1
    have henv1 : env < s₁.envs.length := lt_of_lt_of_le henv ext1.env_le
    obtain ⟨ext2, hwf2⟩ := ih env s₁ v₁ v s' henv1 hwf1 h2
    exact ⟨storeExtends_trans ext1 ext2, hwf2⟩

theorem bindLet_exts {ev : SExpr → Nat → InterpState →
    Except Err (Value × InterpState)} (H : EvalOK ev) :
    ∀ bs env letIdx s s', env < s.envs.length → EnvsWF s.envs →
      bindLet ev bs env letIdx s = .ok s' →
      StoreExtends s s' ∧ EnvsWF s'.envs := by
  intro bs
  induction bs with
  | nil =>
    intro env letIdx s s' _ hwf hb
    unfold bindLet at hb
    injection hb with h1
    rw [← h1]
    exact ⟨storeExtends_refl s, hwf⟩
  | cons b rest ih =>
    intro env letIdx s s' henv hwf hb
    unfold bindLet at hb
    rcases b with n | x | l
    · exact Except.noConfusion hb
    · exact Except.noConfusion hb
    · rcases l with _ | ⟨varE, _ | ⟨valE, _ | ⟨x3, tl⟩⟩⟩
      · exact Except.noConfusion hb
      · exact Except.noConfusion hb
      · obtain ⟨⟨val, s₁⟩, h1, h2⟩ := except_bind_ok.mp hb
        obtain ⟨ext1, hwf1⟩ := H valE env s val s₁ henv hwf h1
        rcases varE with n2 | v | l2
        · exact Except.noConfusion h2
        · obtain ⟨s₂, h3, h4⟩ := except_bind_ok.mp h2
          obtain ⟨ext2, hwf2', hlen2, _, _⟩ := storeDefine_ext h3
          have hwf2 := hwf2' hwf1
          have henv2 : env < s₂.envs.length := by
            rw [hlen2]
            exact lt_of_lt_of_le henv ext1.env_le
          obtain ⟨ext3, hwf3⟩ := ih env letIdx s₂ s' henv2 hwf2 h4
          exact ⟨storeExtends_trans ext1 (storeExtends_trans ext2 ext3), hwf3⟩
        · exact Except.noConfusion h2
      · exact Except.noConfusion hb

theorem bindArgs_exts {ev : SExpr → Nat → InterpState →
    Except Err (Value × InterpState)} (H : EvalOK ev) :
    ∀ ps env callIdx s s', env < s.envs.length → EnvsWF s.envs →
      bindArgs ev ps env callIdx s = .ok s' →
      StoreExtends s s' ∧ EnvsWF s'.envs := by
  intro ps
  induction ps with
  | nil =>
    intro env callIdx s s' _ hwf hb
    unfold bindArgs at hb
    injection hb with h1
    rw [← h1]
    exact ⟨storeExtends_refl s, hwf⟩
  | cons pa rest ih =>
    intro env callIdx s s' henv hwf hb
    obtain ⟨p, argE⟩ := pa
    unfold bindArgs at hb
    obtain ⟨⟨val, s₁⟩, h1, h2⟩ := except_bind_ok.mp hb
    obtain ⟨ext1, hwf1⟩ := H argE env s val s₁ henv hwf h1
    obtain ⟨s₂, h3, h4⟩ := except_bind_ok.mp h2
    obtain ⟨ext2, hwf2', hlen2, _, _⟩ := storeDefine_ext h3
    have hwf2 := hwf2' hwf1
    have henv2 : env < s₂.envs.length := by
      rw [hlen2]
      exact lt_of_lt_of_le henv ext1.env_le
    obtain ⟨ext3, hwf3⟩ := ih env callIdx s₂ s' henv2 hwf2 h4
    exact ⟨storeExtends_trans ext1 (storeExtends_trans ext2 ext3), hwf3⟩

theorem evalArgs_exts {ev : SExpr → Nat → InterpState →
    Except Err (Value × InterpState)} (H : EvalOK ev) :
    ∀ es env s vs s', env < s.envs.length → EnvsWF s.envs →
      evalArgs ev es env s = .ok (vs, s') →
      StoreExtends s s' ∧ EnvsWF s'.envs := by
  intro es
  induction es with
  | nil =>
    intro env s vs s' _ hwf ha
    unfold evalArgs at ha
    injection ha with h1
    rw [show s' = s from (congrArg Prod.snd h1).symm]
    exact ⟨storeExtends_refl s, hwf⟩
  | cons a rest ih =>
    intro env s vs s' henv hwf ha
    unfold evalArgs at ha
    obtain ⟨⟨v₁, s₁⟩, h1, h2⟩ := except_bind_ok.mp ha
    obtain ⟨ext1, hwf1⟩ := H a env s v₁ s₁ henv hwf h1
    obtain ⟨⟨vs₂, s₂⟩, h3, h4⟩ := except_bind_ok.mp h2
    have henv1 : env < s₁.envs.length := lt_of_lt_of_le henv ext1.env_le
    obtain ⟨ext2, hwf2⟩ := ih env s₁ vs₂ s₂ henv1 hwf1 h3
    injection h4 with h5
    rw [show s' = s₂ from (congrArg Prod.snd h5).symm]
    exact ⟨storeExtends_trans ext1 ext2, hwf2⟩

theorem evalDefine_exts {ev : SExpr → Nat → InterpState →
    Except Err (Value × InterpState)} (H : EvalOK ev) :
    ∀ args env s v s', env < s.envs.length → EnvsWF s.envs →
      evalDefine ev args env s = .ok (v, s') →
      StoreExtends s s' ∧ EnvsWF s'.envs := by
  intro args env s v s' henv hwf hd
  unfold evalDefine at hd
  rcases args with _ | ⟨varE, _ | ⟨valE, _ | ⟨x3, tl⟩⟩⟩
  · exact Except.noConfusion hd
  · exact Except.noConfusion hd
  · obtain ⟨⟨val, s₁⟩, h1, h2⟩ := except_bind_ok.mp hd
    obtain ⟨ext1, hwf1⟩ := H valE env s val s₁ henv hwf h1
    rcases varE with n2 | w | l2
    · exact Except.noConfusion h2
    · obtain ⟨s₂, h3, h4⟩ := except_bind_ok.mp h2
      obtain ⟨ext2, hwf2', _, _, _⟩ := storeDefine_ext h3
      injection h4 with h5
      rw [show s' = s₂ from (congrArg Prod.snd h5).symm]
      exact ⟨storeExtends_trans ext1 ext2, hwf2' hwf1⟩
    · exact Except.noConfusion h2
  · exact Except.noConfusion hd

theorem evalLambda_exts :
    ∀ args env s v s', EnvsWF s.envs →
      evalLambda args env s = .ok (v, s') →
      StoreExtends s s' ∧ EnvsWF s'.envs := by
  intro args env s v s' hwf hl
  unfold evalLambda at hl
  rcases args with _ | ⟨paramsE, bodyExprs⟩
  · exact Except.noConfusion hl
  · rcases paramsE with n | x | ps
    · exact Except.noConfusion hl
    · exact Except.noConfusion hl
    · obtain ⟨params, h1, h2⟩ := except_map_ok.mp hl
      rcases bodyExprs with _ | ⟨b, _ | ⟨b2, tl⟩⟩ <;>
        · have h3 : (newClosure s params _ env).2 = s' := congrArg Prod.snd h2
          rw [← h3]
          exact ⟨newClosure_extends s params _ env, hwf⟩

theorem evalLet_exts {ev : SExpr → Nat → InterpState →
    Except Err (Value × InterpState)} (H : EvalOK ev) :
    ∀ args env s v s', env < s.envs.length → EnvsWF s.envs →
      evalLet ev args env s = .ok (v, s') →
      StoreExtends s s' ∧ EnvsWF s'.envs := by
  intro args env s v s' henv hwf hl
  unfold evalLet at hl
  rcases args with _ | ⟨bindingsE, bodyExprs⟩
  · exact Except.noConfusion hl
  · rcases bindingsE with n | x | bs
    · exact Except.noConfusion hl
    · exact Except.noConfusion hl
    · obtain ⟨s₂, h1, h2⟩ := except_bind_ok.mp hl
      have extN : StoreExtends s (newEnv s env) := newEnv_extends s env
      have hwfN : EnvsWF (newEnv s env).envs := newEnv_wf henv hwf
      have henvN : env < (newEnv s env).envs.length := by
        rw [newEnv_envs_length]
        omega
      obtain ⟨ext1, hwf1⟩ := bindLet_exts H bs env s.envs.length _ s₂ henvN hwfN h1
      have hlet1 : s.envs.length < s₂.envs.length := by
        have h3 := ext1.env_le
        rw [newEnv_envs_length] at h3
        omega
      obtain ⟨ext2, hwf2⟩ :=
        evalSeq_exts H bodyExprs s.envs.length s₂ .nil v s' hlet1 hwf1 h2
      exact ⟨storeExtends_trans extN (storeExtends_trans ext1 ext2), hwf2⟩

theorem evalSetBang_exts {ev : SExpr → Nat → InterpState →
    Except Err (Value × InterpState)} (H : EvalOK ev) :
    ∀ args env s v s', env < s.envs.length → EnvsWF s.envs →
      evalSetBang ev args env s = .ok (v, s') →
      StoreExtends s s' ∧ EnvsWF s'.envs := by
  intro args env s v s' henv hwf hb
  unfold evalSetBang at hb
  rcases args with _ | ⟨varE, _ | ⟨valE, _ | ⟨x3, tl⟩⟩⟩
  · exact Except.noConfusion hb
  · exact Except.noConfusion hb
  · obtain ⟨⟨val, s₁⟩, h1, h2⟩ := except_bind_ok.mp hb
    obtain ⟨ext1, hwf1⟩ := H valE env s val s₁ henv hwf h1
    rcases varE with n2 | w | l2
    · exact Except.noConfusion h2
    · obtain ⟨envs', h3, h4⟩ := except_bind_ok.mp h2
      obtain ⟨ext2, hwf2', _⟩ := updateVar_ext (s := s₁) h3
      injection h4 with h5
      rw [show s' = { s₁ with envs := envs' } from (congrArg Prod.snd h5).symm]
      exact ⟨storeExtends_trans ext1 ext2, hwf2' hwf1⟩
    · exact Except.noConfusion h2
  · exact Except.noConfusion hb

theorem evalCall_exts {ev : SExpr → Nat → InterpState →
    Except Err (Value × InterpState)} (H : EvalOK ev) :
    ∀ op args env s v s', env < s.envs.length → EnvsWF s.envs →
      evalCall ev op args env s = .ok (v, s') →
      StoreExtends s s' ∧ EnvsWF s'.envs := by
  intro op args env s v s' henv hwf hc
  unfold evalCall at hc
  obtain ⟨⟨proc, s₁⟩, h1, h2⟩ := except_bind_ok.mp hc
  obtain ⟨ext1, hwf1⟩ := H op env s proc s₁ henv hwf h1
  have henv1 : env < s₁.envs.length := lt_of_lt_of_le henv ext1.env_le
  rcases proc with q | ci | b | _
  · exact Except.noConfusion h2
  · dsimp only at h2
    cases hci : s₁.closures[ci]? with
    | none => rw [hci] at h2; exact Except.noConfusion h2
    | some c =>
      rw [hci] at h2
      dsimp only at h2
      by_cases hce : c.env_id < s₁.envs.length
      · rw [if_pos hce] at h2
        obtain ⟨s₃, h3, h4⟩ := except_bind_ok.mp h2
        have extN : StoreExtends s₁ (newEnv s₁ c.env_id) :=
          newEnv_extends s₁ c.env_id
        have hwfN : EnvsWF (newEnv s₁ c.env_id).envs := newEnv_wf hce hwf1
        have henvN : env < (newEnv s₁ c.env_id).envs.length := by
          rw [newEnv_envs_length]
          omega
        obtain ⟨ext2, hwf3⟩ :=
          bindArgs_exts H (c.params.zip args) env s₁.envs.length _ s₃ henvN hwfN h3
        have hcall : s₁.envs.length < s₃.envs.length := by
          have h5 := ext2.env_le
          rw [newEnv_envs_length] at h5
          omega
        obtain ⟨ext3, hwf4⟩ := H c.body s₁.envs.length s₃ v s' hcall hwf3 h4
        exact ⟨storeExtends_trans ext1 (storeExtends_trans extN
          (storeExtends_trans ext2 ext3)), hwf4⟩
      · rw [if_neg hce] at h2
        exact Except.noConfusion h2
  · dsimp only at h2
    obtain ⟨⟨vals, s₂⟩, h3, h4⟩ := except_bind_ok.mp h2
    obtain ⟨ext2, hwf2⟩ := evalArgs_exts H args env s₁ vals s₂ henv1 hwf1 h3
    obtain ⟨v', h5, h6⟩ := except_bind_ok.mp h4
    injection h6 with h7
    rw [show s' = s₂ from (congrArg Prod.snd h7).symm]
    exact ⟨storeExtends_trans ext1 ext2, hwf2⟩
  · exact Except.noConfusion h2

theorem evalStep_exts {ev : SExpr → Nat → InterpState →
    Except Err (Value × InterpState)} (H : EvalOK ev) :
    EvalOK (evalStep ev) := by
  intro e env s v s' henv hwf hs
  unfold evalStep at hs
  rcases e with n | x | l
  · injection hs with h1
    rw [show s' = s from (congrArg Prod.snd h1).symm]
    exact ⟨storeExtends_refl s, hwf⟩
  · obtain ⟨w, h1, h2⟩ := except_map_ok.mp hs
    rw [show s' = s from (congrArg Prod.snd h2).symm]
    exact ⟨storeExtends_refl s, hwf⟩
  · rcases l with _ | ⟨op, args⟩
    · injection hs with h1
      rw [show s' = s from (congrArg Prod.snd h1).symm]
      exact ⟨storeExtends_refl s, hwf⟩
    · rcases op with n | k | l2
      · exact evalCall_exts H _ args env s v s' henv hwf hs
      · dsimp only at hs
        by_cases hk1 : k = "define"
        · rw [if_pos hk1] at hs
          exact evalDefine_exts H args env s v s' henv hwf hs
        · rw [if_neg hk1] at hs
          by_cases hk2 : k = "lambda"
          · rw [if_pos hk2] at hs
            exact evalLambda_exts args env s v s' hwf hs
          · rw [if_neg hk2] at hs
            by_cases hk3 : k = "begin"
            · rw [if_pos hk3] at hs
              exact evalSeq_exts H args env s .nil v s' henv hwf hs
            · rw [if_neg hk3] at hs
              by_cases hk4 : k = "let"
              · rw [if_pos hk4] at hs
                exact evalLet_exts H args env s v s' henv hwf hs
              · rw [if_neg hk4] at hs
                by_cases hk5 : k = "set!"
                · rw [if_pos hk5] at hs
                  exact evalSetBang_exts H args env s v s' henv hwf hs
                · rw [if_neg hk5] at hs
                  exact evalCall_exts H _ args env s v s' henv hwf hs
      · exact evalCall_exts H _ args env s v s' henv hwf hs

theorem evalExpr_exts : ∀ fl, EvalOK (evalExpr fl) := by
  intro fl
  induction fl with
  | zero => intro e env s v s' _ _ hs; exact Except.noConfusion hs
  | succ fl ih => exact evalStep_exts ih

theorem chainF_congr {envs : List Environment} (hwf : EnvsWF envs) :
    ∀ fl₁ fl₂ h, h < envs.length → h < fl₁ → h < fl₂ →
      chainF envs fl₁ h = chainF envs fl₂ h := by
  intro fl₁
  induction fl₁ with
  | zero => intro fl₂ h _ h1 _; omega
  | succ fla ih =>
    intro fl₂ h hlen h1 h2
    cases fl₂ with
    | zero => omega
    | succ flb =>
      have hf : envs[h]? = some envs[h] := List.getElem?_eq_getElem hlen
      unfold chainF
      rw [hf]
      dsimp only
      cases hp : envs[h].parent with
      | none => rfl
      | some p =>
        have hpl : p < h := by
          have hfo := hwf h envs[h] hf
          unfold FrameOK at hfo
          rw [hp] at hfo
          exact hfo.2
        dsimp only
        rw [ih flb p (by omega) (by omega) (by omega)]

theorem lookupStep_eq {envs : List Environment} (hwf : EnvsWF envs) :
    ∀ fl h name, h < envs.length → h < fl →
      lookupStep envs fl h name =
        (match (chainF envs fl h).find?
            (fun j => (bindingAt envs j name).isSome) with
         | some i =>
             match bindingAt envs i name with
             | some v => .ok v
             | none => .error (.unboundVariable name)
         | none => .error (.unboundVariable name)) := by
  intro fl
  induction fl with
  | zero => intro h name _ h1; omega
  | succ fla ih =>
    intro h name hlen h1
    have hf : envs[h]? = some envs[h] := List.getElem?_eq_getElem hlen
    have hba : bindingAt envs h name = getBinding envs[h].bindings name := by
      unfold bindingAt
      rw [hf]
      rfl
    unfold lookupStep chainF
    rw [hf]
    dsimp only
    cases hg : getBinding envs[h].bindings name with
    | some w =>
      have hpos : (fun j => (bindingAt envs j name).isSome) h = true := by
        dsimp only
        rw [hba, hg]
        rfl
      rw [List.find?_cons_of_pos (p := fun j => (bindingAt envs j name).isSome) _ hpos]
      dsimp only
      rw [hba, hg]
    | none =>
      have hneg : ¬ (fun j => (bindingAt envs j name).isSome) h = true := by
        dsimp only
        rw [hba, hg]
        simp
      rw [List.find?_cons_of_neg (p := fun j => (bindingAt envs j name).isSome) _ hneg]
      cases hp : envs[h].parent with
      | none => rfl
      | some p =>
        have hpl : p < h := by
          have hfo := hwf h envs[h] hf
          unfold FrameOK at hfo
          rw [hp] at hfo
          exact hfo.2
        dsimp only
        exact ih p name (by omega) (by omega)

theorem updateStep_eq {envs : List Environment} (hwf : EnvsWF envs) :
    ∀ fl h name w, h < envs.length → h < fl →
      updateStep envs fl h name w =
        (match (chainF envs fl h).find?
            (fun j => (bindingAt envs j name).isSome) with
         | some i =>
             match envs[i]? with
             | some f => .ok (envs.set i (f.defineVar name w))
             | none => .error (.unboundVariable name)
         | none => .error (.unboundVariable name)) := by
  intro fl
  induction fl with
  | zero => intro h name w _ h1; omega
  | succ fla ih =>
    intro h name w hlen h1
    have hf : envs[h]? = some envs[h] := List.getElem?_eq_getElem hlen
    have hba : bindingAt envs h name = getBinding envs[h].bindings name := by
      unfold bindingAt
      rw [hf]
      rfl
    unfold updateStep chainF
    rw [hf]
    dsimp only
    cases hg : getBinding envs[h].bindings name with
    | some v =>
      have hpos : (fun j => (bindingAt envs j name).isSome) h = true := by
        dsimp only
        rw [hba, hg]
        rfl
      rw [List.find?_cons_of_pos (p := fun j => (bindingAt envs j name).isSome) _ hpos]
      dsimp only
      rw [hf]
    | none =>
      have hneg : ¬ (fun j => (bindingAt envs j name).isSome) h = true := by
        dsimp only
        rw [hba, hg]
        simp
      rw [List.find?_cons_of_neg (p := fun j => (bindingAt envs j name).isSome) _ hneg]
      cases hp : envs[h].parent with
      | none => rfl
      | some p =>
        have hpl : p < h := by
          have hfo := hwf h envs[h] hf
          unfold FrameOK at hfo
          rw [hp] at hfo
          exact hfo.2
        dsimp only
        exact ih p name w (by omega) (by omega)

theorem nearestOwner_eq_len {envs : List Environment} {h : Nat}
    (hwf : EnvsWF envs) (hlen : h < envs.length) (name : String) :
    (chainF envs envs.length h).find?
        (fun j => (bindingAt envs j name).isSome) =
      nearestOwner envs h name := by
  unfold nearestOwner frameChain
  rw [chainF_congr hwf envs.length (h + 1) h hlen hlen (by omega)]

theorem bumpState_envs (k : Nat) (s : InterpState) :
    (bumpState k s).envs = s.envs := rfl

theorem storeDefine_bump (k : Nat) (s : InterpState) (h : Nat) (name : String)
    (v : Value) :
    storeDefine (bumpState k s) h name v =
      (storeDefine s h name v).map (bumpState k) := by
  unfold storeDefine
  show (match s.envs[h]? with
        | none => Except.error (Err.native "invalid frame handle")
        | some f =>
            Except.ok { bumpState k s with
              envs := (bumpState k s).envs.set h (f.defineVar name v) }) = _
  cases hf : s.envs[h]? with
  | none => rfl
  | some f => rfl

theorem newEnv_bump (k : Nat) (s : InterpState) (p : Nat) :
    newEnv (bumpState k s) p = bumpState k (newEnv s p) := rfl

theorem newClosure_bump (k : Nat) (s : InterpState) (params : List String)
    (body : SExpr) (e : Nat) :
    newClosure (bumpState k s) params body e =
      ((newClosure s params body e).1,
       bumpState k (newClosure s params body e).2) := by
  unfold newClosure bumpState bumpClosure
  simp only [List.length_map, List.map_append, List.map_cons, List.map_nil,
    Prod.mk.injEq, InterpState.mk.injEq, true_and, and_true]
  omega

theorem evalSeq_bump {ev : SExpr → Nat → InterpState →
    Except Err (Value × InterpState)} (H : BumpOK ev) :
    ∀ es k env s acc,
      evalSeq ev es env (bumpState k s) acc =
        bumpRes k (evalSeq ev es env s acc) := by
  intro es
  induction es with
  | nil => intro k env s acc; rfl
  | cons e rest ih =>
    intro k env s acc
    unfold evalSeq
    dsimp only [bumpRes, Except.map, Bind.bind, Except.bind]
    rw [H]
    cases hev : ev e env s with
    | error er => rfl
    | ok p =>
      obtain ⟨v₁, s₁⟩ := p
      exact ih k env s₁ v₁

theorem bindLet_bump {ev : SExpr → Nat → InterpState →
    Except Err (Value × InterpState)} (H : BumpOK ev) :
    ∀ bs k env letIdx s,
      bindLet ev bs env letIdx (bumpState k s) =
        (bindLet ev bs env letIdx s).map (bumpState k) := by
  intro bs
  induction bs with
  | nil => intro k env letIdx s; rfl
  | cons b rest ih =>
    intro k env letIdx s
    unfold bindLet
    rcases b with n | x | l
    · rfl
    · rfl
    · rcases l with _ | ⟨varE, _ | ⟨valE, _ | ⟨x3, tl⟩⟩⟩
      · rfl
      · rfl
      · dsimp only [bumpRes, Except.map, Bind.bind, Except.bind]
        rw [H]
        cases hev : ev valE env s with
        | error er => rfl
        | ok p =>
          obtain ⟨val, s₁⟩ := p
          rcases varE with n2 | w | l2
          · rfl
          · show (do
                let s₂ ← storeDefine (bumpState k s₁) letIdx w val
                bindLet ev rest env letIdx s₂) =
              ((do
                let s₂ ← storeDefine s₁ letIdx w val
                bindLet ev rest env letIdx s₂) :
                  Except Err InterpState).map (bumpState k)
            rw [storeDefine_bump]
            cases hsd : storeDefine s₁ letIdx w val with
            | error er => rfl
            | ok s₂ => exact ih k env letIdx s₂
          · rfl
      · rfl

theorem bindArgs_bump {ev : SExpr → Nat → InterpState →
    Except Err (Value × InterpState)} (H : BumpOK ev) :
    ∀ ps k env callIdx s,
      bindArgs ev ps env callIdx (bumpState k s) =
        (bindArgs ev ps env callIdx s).map (bumpState k) := by
  intro ps
  induction ps with
  | nil => intro k env callIdx s; rfl
  | cons pa rest ih =>
    intro k env callIdx s
    obtain ⟨p, argE⟩ := pa
    unfold bindArgs
    dsimp only [bumpRes, Except.map, Bind.bind, Except.bind]
    rw [H]
    cases hev : ev argE env s with
    | error er => rfl
    | ok q =>
      obtain ⟨val, s₁⟩ := q
      show (do
          let s₂ ← storeDefine (bumpState k s₁) callIdx p val
          bindArgs ev rest env callIdx s₂) =
        ((do
          let s₂ ← storeDefine s₁ callIdx p val
          bindArgs ev rest env callIdx s₂) :
            Except Err InterpState).map (bumpState k)
      rw [storeDefine_bump]
      cases hsd : storeDefine s₁ callIdx p val with
      | error er => rfl
      | ok s₂ => exact ih k env callIdx s₂

theorem evalArgs_bump {ev : SExpr → Nat → InterpState →
    Except Err (Value × InterpState)} (H : BumpOK ev) :
    ∀ es k env s,
      evalArgs ev es env (bumpState k s) =
        (evalArgs ev es env s).map (fun p => (p.1, bumpState k p.2)) := by
  intro es
  induction es with
  | nil => intro k env s; rfl
  | cons a rest ih =>
    intro k env s
    unfold evalArgs
    rw [H]
    cases hev : ev a env s with
    | error er => rfl
    | ok q =>
      obtain ⟨v₁, s₁⟩ := q
      dsimp only [bumpRes, Except.map, Bind.bind, Except.bind]
      rw [ih]
      cases hea : evalArgs ev rest env s₁ with
      | error er => rfl
      | ok q2 => rfl

theorem evalDefine_bump {ev : SExpr → Nat → InterpState →
    Except Err (Value × InterpState)} (H : BumpOK ev) :
    ∀ args k env s,
      evalDefine ev args env (bumpState k s) =
        bumpRes k (evalDefine ev args env s) := by
  intro args k env s
  unfold evalDefine
  rcases args with _ | ⟨varE, _ | ⟨valE, _ | ⟨x3, tl⟩⟩⟩
  · rfl
  · rfl
  · dsimp only [bumpRes, Except.map, Bind.bind, Except.bind]
    rw [H]
    cases hev : ev valE env s with
    | error er => rfl
    | ok p =>
      obtain ⟨val, s₁⟩ := p
      rcases varE with n2 | w | l2
      · rfl
      · dsimp only [bumpRes, Except.map, Bind.bind, Except.bind]
        rw [storeDefine_bump]
        cases hsd : storeDefine s₁ env w val with
        | error er => rfl
        | ok s₂ => rfl
      · rfl
  · rfl

theorem evalLambda_bump :
    ∀ args k env s,
      evalLambda args env (bumpState k s) =
        bumpRes k (evalLambda args env s) := by
  intro args k env s
  unfold evalLambda
  rcases args with _ | ⟨paramsE, bodyExprs⟩
  · rfl
  · rcases paramsE with n | x | ps
    · rfl
    · rfl
    · dsimp only [bumpRes, Except.map, Bind.bind, Except.bind]
      cases hsn : symNames ps with
      | error er => rfl
      | ok params =>
        dsimp only [bumpRes, Except.map, Bind.bind, Except.bind]
        rw [newClosure_bump]

theorem evalSetBang_bump {ev : SExpr → Nat → InterpState →
    Except Err (Value × InterpState)} (H : BumpOK ev) :
    ∀ args k env s,
      evalSetBang ev args env (bumpState k s) =
        bumpRes k (evalSetBang ev args env s) := by
  intro args k env s
  unfold evalSetBang
  rcases args with _ | ⟨varE, _ | ⟨valE, _ | ⟨x3, tl⟩⟩⟩
  · rfl
  · rfl
  · dsimp only [bumpRes, Except.map, Bind.bind, Except.bind]
    rw [H]
    cases hev : ev valE env s with
    | error er => rfl
    | ok p =>
      obtain ⟨val, s₁⟩ := p
      rcases varE with n2 | w | l2
      · rfl
      · dsimp only [bumpRes, Except.map, Bind.bind, Except.bind]
        rw [bumpState_envs]
        cases hup : updateVar s₁.envs env w val with
        | error er => rfl
        | ok envs' => rfl
      · rfl
  · rfl

theorem evalLet_bump {ev : SExpr → Nat → InterpState →
    Except Err (Value × InterpState)} (H : BumpOK ev) :
    ∀ args k env s,
      evalLet ev args env (bumpState k s) =
        bumpRes k (evalLet ev args env s) := by
  intro args k env s
  unfold evalLet
  rcases args with _ | ⟨bindingsE, bodyExprs⟩
  · rfl
  · rcases bindingsE with n | x | bs
    · rfl
    · rfl
    · dsimp only [bumpRes, Except.map, Bind.bind, Except.bind]
      rw [bumpState_envs, newEnv_bump, bindLet_bump H]
      cases hbl : bindLet ev bs env s.envs.length (newEnv s env) with
      | error er => rfl
      | ok s₂ => exact evalSeq_bump H bodyExprs k s.envs.length s₂ .nil

theorem evalCall_bump {ev : SExpr → Nat → InterpState →
    Except Err (Value × InterpState)} (H : BumpOK ev) :
    ∀ op args k env s,
      evalCall ev op args env (bumpState k s) =
        bumpRes k (evalCall ev op args env s) := by
  intro op args k env s
  unfold evalCall
  rw [H]
  cases hev : ev op env s with
  | error er => rfl
  | ok p =>
    obtain ⟨proc, s₁⟩ := p
    rcases proc with q | ci | b | _
    · rfl
    · dsimp only [bumpRes, Except.map, Bind.bind, Except.bind]
      have hcm : (bumpState k s₁).closures[ci]? =
          (s₁.closures[ci]?).map (bumpClosure k) := List.getElem?_map _ _ _
      rw [hcm]
      cases hci : s₁.closures[ci]? with
      | none => rfl
      | some c =>
        dsimp only [Option.map]
        rw [show (bumpClosure k c).env_id = c.env_id from rfl, bumpState_envs]
        by_cases hlt : c.env_id < s₁.envs.length
        · rw [if_pos hlt, if_pos hlt]
          rw [show (bumpClosure k c).params = c.params from rfl,
            show (bumpClosure k c).body = c.body from rfl,
            newEnv_bump, bindArgs_bump H]
          cases hba : bindArgs ev (c.params.zip args) env s₁.envs.length
              (newEnv s₁ c.env_id) with
          | error er => rfl
          | ok s₃ =>
            dsimp only [bumpRes, Except.map, Bind.bind, Except.bind]
            rw [H]
            rfl
        · rw [if_neg hlt, if_neg hlt]
    · dsimp only [bumpRes, Except.map, Bind.bind, Except.bind]
      rw [evalArgs_bump H]
      cases hea : evalArgs ev args env s₁ with
      | error er => rfl
      | ok q =>
        obtain ⟨vals, s₂⟩ := q
        dsimp only [bumpRes, Except.map, Bind.bind, Except.bind]
        cases hab : applyBuiltin b vals with
        | error er => rfl
        | ok v => rfl
    · rfl

theorem evalStep_bump {ev : SExpr → Nat → InterpState →
    Except Err (Value × InterpState)} (H : BumpOK ev) :
    BumpOK (evalStep ev) := by
  intro k e env s
  unfold evalStep
  rcases e with n | x | l
  · rfl
  · dsimp only
    rw [bumpState_envs]
    cases hl : lookupVar s.envs env x with
    | error er => rfl
    | ok w => rfl
  · rcases l with _ | ⟨op, args⟩
    · rfl
    · rcases op with n | key | l2
      · exact evalCall_bump H _ args k env s
      · dsimp only [bumpRes, Except.map, Bind.bind, Except.bind]
        by_cases hk1 : key = "define"
        · rw [if_pos hk1, if_pos hk1]
          exact evalDefine_bump H args k env s
        · rw [if_neg hk1, if_neg hk1]
          by_cases hk2 : key = "lambda"
          · rw [if_pos hk2, if_pos hk2]
            exact evalLambda_bump args k env s
          · rw [if_neg hk2, if_neg hk2]
            by_cases hk3 : key = "begin"
            · rw [if_pos hk3, if_pos hk3]
              exact evalSeq_bump H args k env s .nil
            · rw [if_neg hk3, if_neg hk3]
              by_cases hk4 : key = "let"
              · rw [if_pos hk4, if_pos hk4]
                exact evalLet_bump H args k env s
              · rw [if_neg hk4, if_neg hk4]
                by_cases hk5 : key = "set!"
                · rw [if_pos hk5, if_pos hk5]
                  exact evalSetBang_bump H args k env s
                · rw [if_neg hk5, if_neg hk5]
                  exact evalCall_bump H _ args k env s
      · exact evalCall_bump H _ args k env s

theorem evalExpr_bump : ∀ fl, BumpOK (evalExpr fl) := by
  intro fl
  induction fl with
  | zero => intro k e env s; rfl
  | succ fl ih => exact evalStep_bump ih

theorem initState_bump (k : Nat) : initState k = bumpState k (initState 0) := by
  unfold initState bumpState
  simp

theorem runProgram_bump (fl : Nat) (prog : List SExpr) (k : Nat) :
    runProgram fl prog k = bumpRes k (runProgram fl prog 0) := by
  unfold runProgram
  rw [initState_bump]
  exact evalSeq_bump (evalExpr_bump fl) prog k 0 (initState 0) .nil

theorem evalSeq2_eq (ev : SExpr → Nat → InterpState →
    Except Err (Value × InterpState)) :
    ∀ es env s acc, evalSeq2 ev es env s acc = evalSeq ev es env s acc := by
  intro es
  induction es with
  | nil => intro env s acc; rfl
  | cons e rest ih =>
    intro env s acc
    unfold evalSeq2 evalSeq
    cases hev : ev e env s with
    | error er => rfl
    | ok p =>
      obtain ⟨v₁, s₁⟩ := p
      exact ih env s₁ v₁

theorem bindLet2_eq (ev : SExpr → Nat → InterpState →
    Except Err (Value × InterpState)) :
    ∀ bs env letIdx s,
      bindLet2 ev bs env letIdx s = bindLet ev bs env letIdx s := by
  intro bs
  induction bs with
  | nil => intro env letIdx s; rfl
  | cons b rest ih =>
    intro env letIdx s
    unfold bindLet2 bindLet
    rcases b with n | x | l
    · rfl
    · rfl
    · rcases l with _ | ⟨varE, _ | ⟨valE, _ | ⟨x3, tl⟩⟩⟩
      · rfl
      · rfl
      · dsimp only [Bind.bind, Except.bind]
        cases hev : ev valE env s with
        | error er => rfl
        | ok p =>
          obtain ⟨val, s₁⟩ := p
          rcases varE with n2 | w | l2
          · rfl
          · dsimp only [Bind.bind, Except.bind]
            cases hsd : storeDefine s₁ letIdx w val with
            | error er => rfl
            | ok s₂ => exact ih env letIdx s₂
          · rfl
      · rfl

theorem bindArgs2_eq (ev : SExpr → Nat → InterpState →
    Except Err (Value × InterpState)) :
    ∀ ps env callIdx s,
      bindArgs2 ev ps env callIdx s = bindArgs ev ps env callIdx s := by
  intro ps
  induction ps with
  | nil => intro env callIdx s; rfl
  | cons pa rest ih =>
    intro env callIdx s
    obtain ⟨p, argE⟩ := pa
    unfold bindArgs2 bindArgs
    cases hev : ev argE env s with
    | error er => rfl
    | ok q =>
      obtain ⟨val, s₁⟩ := q
      dsimp only [Bind.bind, Except.bind]
      cases hsd : storeDefine s₁ callIdx p val with
      | error er => rfl
      | ok s₂ => exact ih env callIdx s₂

theorem evalArgs2_eq (ev : SExpr → Nat → InterpState →
    Except Err (Value × InterpState)) :
    ∀ es env s, evalArgs2 ev es env s = evalArgs ev es env s := by
  intro es
  induction es with
  | nil => intro env s; rfl
  | cons a rest ih =>
    intro env s
    unfold evalArgs2 evalArgs
    cases hev : ev a env s with
    | error er => rfl
    | ok q =>
      obtain ⟨v₁, s₁⟩ := q
      dsimp only [Bind.bind, Except.bind]
      rw [ih]

theorem evalCall2_eq (ev : SExpr → Nat → InterpState →
    Except Err (Value × InterpState)) :
    ∀ op args env s,
      evalCall2 ev op args env s = evalCall ev op args env s := by
  intro op args env s
  unfold evalCall2 evalCall
  cases hev : ev op env s with
  | error er => rfl
  | ok p =>
    obtain ⟨proc, s₁⟩ := p
    rcases proc with q | ci | b | _
    · rfl
    · dsimp only [Bind.bind, Except.bind]
      cases hci : s₁.closures[ci]? with
      | none => rfl
      | some c =>
        dsimp only [Bind.bind, Except.bind]
        by_cases hlt : c.env_id < s₁.envs.length
        · rw [if_pos hlt, if_pos hlt, bindArgs2_eq]
        · rw [if_neg hlt, if_neg hlt]
    · dsimp only [Bind.bind, Except.bind]
      rw [evalArgs2_eq]
    · rfl

theorem evalDefine2_eq (ev : SExpr → Nat → InterpState →
    Except Err (Value × InterpState)) :
    ∀ args env s, evalDefine2 ev args env s = evalDefine ev args env s := by
  intro args env s
  rfl

theorem evalLambda2_eq :
    ∀ args env s, evalLambda2 args env s = evalLambda args env s := by
  intro args env s
  rfl

theorem evalLet2_eq (ev : SExpr → Nat → InterpState →
    Except Err (Value × InterpState)) :
    ∀ args env s, evalLet2 ev args env s = evalLet ev args env s := by
  intro args env s
  unfold evalLet2 evalLet
  rcases args with _ | ⟨bindingsE, bodyExprs⟩
  · rfl
  · rcases bindingsE with n | x | bs
    · rfl
    · rfl
    · dsimp only [Bind.bind, Except.bind]
      rw [bindLet2_eq]
      cases hbl : bindLet ev bs env s.envs.length (newEnv s env) with
      | error er => rfl
      | ok s₂ => exact evalSeq2_eq ev bodyExprs s.envs.length s₂ .nil

theorem evalSetBang2_eq (ev : SExpr → Nat → InterpState →
    Except Err (Value × InterpState)) :
    ∀ args env s, evalSetBang2 ev args env s = evalSetBang ev args env s := by
  intro args env s
  rfl

theorem evalStep2_eq (ev : SExpr → Nat → InterpState →
    Except Err (Value × InterpState)) :
    ∀ e env s, evalStep2 ev e env s = evalStep ev e env s := by
  intro e env s
  unfold evalStep2 evalStep
  rcases e with n | x | l
  · rfl
  · rfl
  · rcases l with _ | ⟨op, args⟩
    · rfl
    · rcases op with n | key | l2
      · exact evalCall2_eq ev _ args env s
      · dsimp only [Bind.bind, Except.bind]
        by_cases hk1 : key = "define"
        · rw [if_pos hk1, if_pos hk1, evalDefine2_eq]
        · rw [if_neg hk1, if_neg hk1]
          by_cases hk2 : key = "lambda"
          · rw [if_pos hk2, if_pos hk2, evalLambda2_eq]
          · rw [if_neg hk2, if_neg hk2]
            by_cases hk3 : key = "begin"
            · rw [if_pos hk3, if_pos hk3, evalSeq2_eq]
            · rw [if_neg hk3, if_neg hk3]
              by_cases hk4 : key = "let"
              · rw [if_pos hk4, if_pos hk4, evalLet2_eq]
              · rw [if_neg hk4, if_neg hk4]
                by_cases hk5 : key = "set!"
                · rw [if_pos hk5, if_pos hk5, evalSetBang2_eq]
                · rw [if_neg hk5, if_neg hk5]
                  exact evalCall2_eq ev _ args env s
      · exact evalCall2_eq ev _ args env s

theorem evalExpr2_eq : ∀ fl, evalExpr2 fl = evalExpr fl := by
  intro fl
  induction fl with
  | zero => rfl
  | succ fl ih =>
    funext e env s
    show evalStep2 (evalExpr2 fl) e env s = evalStep (evalExpr fl) e env s
    rw [ih]
    exact evalStep2_eq (evalExpr fl) e env s

theorem evalSeq3_eq (ev : SExpr → Nat → InterpState →
    Except Err (Value × InterpState)) :
    ∀ es env s acc, evalSeq3 ev es env s acc = evalSeq ev es env s acc := by
  intro es
  induction es with
  | nil => intro env s acc; rfl
  | cons e rest ih =>
    intro env s acc
    unfold evalSeq3 evalSeq
    cases hev : ev e env s with
    | error er => rfl
    | ok p =>
      obtain ⟨v₁, s₁⟩ := p
      exact ih env s₁ v₁

theorem bindLet3_eq (ev : SExpr → Nat → InterpState →
    Except Err (Value × InterpState)) :
    ∀ bs env letIdx s,
      bindLet3 ev bs env letIdx s = bindLet ev bs env letIdx s := by
  intro bs
  induction bs with
  | nil => intro env letIdx s; rfl
  | cons b rest ih =>
    intro env letIdx s
    unfold bindLet3 bindLet
    rcases b with n | x | l
    · rfl
    · rfl
    · rcases l with _ | ⟨varE, _ | ⟨valE, _ | ⟨x3, tl⟩⟩⟩
      · rfl
      · rfl
      · dsimp only [Bind.bind, Except.bind]
        cases hev : ev valE env s with
        | error er => rfl
        | ok p =>
          obtain ⟨val, s₁⟩ := p
          rcases varE with n2 | w | l2
          · rfl
          · dsimp only [Bind.bind, Except.bind]
            cases hsd : storeDefine s₁ letIdx w val with
            | error er => rfl
            | ok s₂ => exact ih env letIdx s₂
          · rfl
      · rfl

theorem bindArgs3_eq (ev : SExpr → Nat → InterpState →
    Except Err (Value × InterpState)) :
    ∀ ps env callIdx s,
      bindArgs3 ev ps env callIdx s = bindArgs ev ps env callIdx s := by
  intro ps
  induction ps with
  | nil => intro env callIdx s; rfl
  | cons pa rest ih =>
    intro env callIdx s
    obtain ⟨p, argE⟩ := pa
    unfold bindArgs3 bindArgs
    cases hev : ev argE env s with
    | error er => rfl
    | ok q =>
      obtain ⟨val, s₁⟩ := q
      dsimp only [Bind.bind, Except.bind]
      cases hsd : storeDefine s₁ callIdx p val with
      | error er => rfl
      | ok s₂ => exact ih env callIdx s₂

theorem evalArgs3_eq (ev : SExpr → Nat → InterpState →
    Except Err (Value × InterpState)) :
    ∀ es env s, evalArgs3 ev es env s = evalArgs ev es env s := by
  intro es
  induction es with
  | nil => intro env s; rfl
  | cons a rest ih =>
    intro env s
    unfold evalArgs3 evalArgs
    cases hev : ev a env s with
    | error er => rfl
    | ok q =>
      obtain ⟨v₁, s₁⟩ := q
      dsimp only [Bind.bind, Except.bind]
      rw [ih]

theorem evalCall3_eq (ev : SExpr → Nat → InterpState →
    Except Err (Value × InterpState)) :
    ∀ op args env s,
      evalCall3 ev op args env s = evalCall ev op args env s := by
  intro op args env s
  unfold evalCall3 evalCall
  cases hev : ev op env s with
  | error er => rfl
  | ok p =>
    obtain ⟨proc, s₁⟩ := p
    rcases proc with q | ci | b | _
    · rfl
    · dsimp only [Bind.bind, Except.bind]
      cases hci : s₁.closures[ci]? with
      | none => rfl
      | some c =>
        dsimp only [Bind.bind, Except.bind]
        by_cases hlt : c.env_id < s₁.envs.length
        · rw [if_pos hlt, if_pos hlt, bindArgs3_eq]
        · rw [if_neg hlt, if_neg hlt]
    · dsimp only [Bind.bind, Except.bind]
      rw [evalArgs3_eq]
    · rfl

theorem evalDefine3_eq (ev : SExpr → Nat → InterpState →
    Except Err (Value × InterpState)) :
    ∀ args env s, evalDefine3 ev args env s = evalDefine ev args env s := by
  intro args env s
  rfl

theorem evalLambda3_eq :
    ∀ args env s, evalLambda3 args env s = evalLambda args env s := by
  intro args env s
  rfl

theorem evalLet3_eq (ev : SExpr → Nat → InterpState →
    Except Err (Value × InterpState)) :
    ∀ args env s, evalLet3 ev args env s = evalLet ev args env s := by
  intro args env s
  unfold evalLet3 evalLet
  rcases args with _ | ⟨bindingsE, bodyExprs⟩
  · rfl
  · rcases bindingsE with n | x | bs
    · rfl
    · rfl
    · dsimp only [Bind.bind, Except.bind]
      rw [bindLet3_eq]
      cases hbl : bindLet ev bs env s.envs.length (newEnv s env) with
      | error er => rfl
      | ok s₂ => exact evalSeq3_eq ev bodyExprs s.envs.length s₂ .nil

theorem evalSetBang3_eq (ev : SExpr → Nat → InterpState →
    Except Err (Value × InterpState)) :
    ∀ args env s, evalSetBang3 ev args env s = evalSetBang ev args env s := by
  intro args env s
  rfl

theorem evalStep3_eq (ev : SExpr → Nat → InterpState →
    Except Err (Value × InterpState)) :
    ∀ e env s, evalStep3 ev e env s = evalStep ev e env s := by
  intro e env s
  unfold evalStep3 evalStep
  rcases e with n | x | l
  · rfl
  · rfl
  · rcases l with _ | ⟨op, args⟩
    · rfl
    · rcases op with n | key | l2
      · exact evalCall3_eq ev _ args env s
      · dsimp only [Bind.bind, Except.bind]
        by_cases hk1 : key = "define"
        · rw [if_pos hk1, if_pos hk1, evalDefine3_eq]
        · rw [if_neg hk1, if_neg hk1]
          by_cases hk2 : key = "lambda"
          · rw [if_pos hk2, if_pos hk2, evalLambda3_eq]
          · rw [if_neg hk2, if_neg hk2]
            by_cases hk3 : key = "begin"
            · rw [if_pos hk3, if_pos hk3, evalSeq3_eq]
            · rw [if_neg hk3, if_neg hk3]
              by_cases hk4 : key = "let"
              · rw [if_pos hk4, if_pos hk4, evalLet3_eq]
              · rw [if_neg hk4, if_neg hk4]
                by_cases hk5 : key = "set!"
                · rw [if_pos hk5, if_pos hk5, evalSetBang3_eq]
                · rw [if_neg hk5, if_neg hk5]
                  exact evalCall3_eq ev _ args env s
      · exact evalCall3_eq ev _ args env s

theorem evalExpr3_eq : ∀ fl, evalExpr3 fl = evalExpr fl := by
  intro fl
  induction fl with
  | zero => rfl
  | succ fl ih =>
    funext e env s
    show evalStep3 (evalExpr3 fl) e env s = evalStep (evalExpr fl) e env s
    rw [ih]
    exact evalStep3_eq (evalExpr fl) e env s

theorem initState_wf (c : Nat) : EnvsWF (initState c).envs :=
  envsWF_of_b (by rfl)

theorem runProgram_exts {fl : Nat} {prog : List SExpr} {c : Nat} {v : Value}
    {s' : InterpState} (h : runProgram fl prog c = .ok (v, s')) :
    StoreExtends (initState c) s' ∧ EnvsWF s'.envs :=
  evalSeq_exts (evalExpr_exts fl) prog 0 (initState c) .nil v s'
    (by simp [initState]) (initState_wf c) h

theorem evalLet_frame {ev : SExpr → Nat → InterpState →
    Except Err (Value × InterpState)} (H : EvalOK ev) :
    ∀ bs bodyExprs env s v s', env < s.envs.length → EnvsWF s.envs →
      evalLet ev (SExpr.list bs :: bodyExprs) env s = .ok (v, s') →
      s.envs.length < s'.envs.length ∧
      (s'.envs[s.envs.length]?).map Environment.parent = some (some env) ∧
      (s'.envs[s.envs.length]?).map Environment.env_id =
        some s.envs.length := by
  intro bs bodyExprs env s v s' henv hwf hl
  obtain ⟨s₂, h1, h2⟩ := except_bind_ok.mp hl
  have hwfN : EnvsWF (newEnv s env).envs := newEnv_wf henv hwf
  have henvN : env < (newEnv s env).envs.length := by
    rw [newEnv_envs_length]
    omega
  obtain ⟨ext1, hwf1⟩ := bindLet_exts H bs env s.envs.length _ s₂ henvN hwfN h1
  have hlt1 : s.envs.length < s₂.envs.length := by
    have h3 := ext1.env_le
    rw [newEnv_envs_length] at h3
    omega
  obtain ⟨ext2, hwf2⟩ :=
    evalSeq_exts H bodyExprs s.envs.length s₂ .nil v s' hlt1 hwf1 h2
  have hN : (newEnv s env).envs[s.envs.length]? =
      some { env_id := s.envs.length, parent := some env, bindings := [] } :=
    newEnv_get_last s env
  obtain ⟨f1, hf1, hid1, hp1⟩ := ext1.env_meta _ _ hN
  obtain ⟨f2, hf2, hid2, hp2⟩ := ext2.env_meta _ _ hf1
  have hlt2 : s.envs.length < s'.envs.length :=
    lt_of_lt_of_le hlt1 ext2.env_le
  refine ⟨hlt2, ?_, ?_⟩
  · rw [hf2]
    simp only [Option.map_some']
    rw [hp2, hp1]
  · rw [hf2]
    simp only [Option.map_some']
    rw [hid2, hid1]

theorem evalCall_frame {ev : SExpr → Nat → InterpState →
    Except Err (Value × InterpState)} (H : EvalOK ev) :
    ∀ op args env s v s' ci c s₁, env < s.envs.length → EnvsWF s.envs →
      ev op env s = .ok (.closure ci, s₁) →
      s₁.closures[ci]? = some c →
      evalCall ev op args env s = .ok (v, s') →
      c.env_id < s₁.envs.length ∧
      s₁.envs.length < s'.envs.length ∧
      (s'.envs[s₁.envs.length]?).map Environment.parent =
        some (some c.env_id) ∧
      (s'.envs[s₁.envs.length]?).map Environment.env_id =
        some s₁.envs.length := by
  intro op args env s v s' ci c s₁ henv hwf hop hci hc
  unfold evalCall at hc
  rw [hop] at hc
  dsimp only [Bind.bind, Except.bind] at hc
  rw [hci] at hc
  dsimp only at hc
  obtain ⟨ext1, hwf1⟩ := H op env s _ s₁ henv hwf hop
  by_cases hce : c.env_id < s₁.envs.length
  · rw [if_pos hce] at hc
    obtain ⟨s₃, h3, h4⟩ := except_bind_ok.mp hc
    have hwfN : EnvsWF (newEnv s₁ c.env_id).envs := newEnv_wf hce hwf1
    have henvN : env < (newEnv s₁ c.env_id).envs.length := by
      have := lt_of_lt_of_le henv ext1.env_le
      rw [newEnv_envs_length]
      omega
    obtain ⟨ext2, hwf3⟩ :=
      bindArgs_exts H (c.params.zip args) env s₁.envs.length _ s₃ henvN hwfN h3
    have hlt1 : s₁.envs.length < s₃.envs.length := by
      have h5 := ext2.env_le
      rw [newEnv_envs_length] at h5
      omega
    obtain ⟨ext3, hwf4⟩ := H c.body s₁.envs.length s₃ v s' hlt1 hwf3 h4
    have hN : (newEnv s₁ c.env_id).envs[s₁.envs.length]? =
        some { env_id := s₁.envs.length, parent := some c.env_id,
               bindings := [] } :=
      newEnv_get_last s₁ c.env_id
    obtain ⟨f1, hf1, hid1, hp1⟩ := ext2.env_meta _ _ hN
    obtain ⟨f2, hf2, hid2, hp2⟩ := ext3.env_meta _ _ hf1
    refine ⟨hce, lt_of_lt_of_le hlt1 ext3.env_le, ?_, ?_⟩
    · rw [hf2]
      simp only [Option.map_some']
      rw [hp2, hp1]
    · rw [hf2]
      simp only [Option.map_some']
      rw [hid2, hid1]
  · rw [if_neg hce] at hc
    exact Except.noConfusion hc

theorem evalLambda_record :
    ∀ args env s v s', evalLambda args env s = .ok (v, s') →
      s'.envs = s.envs ∧ s'.closures.length = s.closures.length + 1 ∧
      s'.closure_counter = s.closure_counter + 1 ∧
      v = Value.closure s.closures.length ∧
      (s'.closures[s.closures.length]?).map Closure.env_id = some env := by
  intro args env s v s' hl
  unfold evalLambda at hl
  rcases args with _ | ⟨paramsE, bodyExprs⟩
  · exact Except.noConfusion hl
  · rcases paramsE with n | x | ps
    · exact Except.noConfusion hl
    · exact Except.noConfusion hl
    · obtain ⟨params, h1, h2⟩ := except_map_ok.mp hl
      rcases bodyExprs with _ | ⟨b, _ | ⟨b2, tl⟩⟩ <;>
      · have hv : (newClosure s params _ env).1 = v := congrArg Prod.fst h2
        have hs : (newClosure s params _ env).2 = s' := congrArg Prod.snd h2
        rw [← hs, ← hv]
        refine ⟨rfl, by simp [newClosure], rfl, rfl, ?_⟩
        show ((s.closures ++ [_])[s.closures.length]?).map Closure.env_id = _
        rw [List.getElem?_concat_length]
        rfl

theorem evalCall_notCallable {ev : SExpr → Nat → InterpState →
    Except Err (Value × InterpState)} :
    ∀ op args env s v s₁, ev op env s = .ok (v, s₁) →
      callableShape v = false →
      evalCall ev op args env s = .error (.notCallable v) := by
  intro op args env s v s₁ hop hcs
  unfold evalCall
  rw [hop]
  dsimp only [Bind.bind, Except.bind]
  rcases v with q | ci | b | _
  · rfl
  · exact absurd hcs (by simp [callableShape])
  · exact absurd hcs (by simp [callableShape])
  · rfl

theorem evalStep_not_special {ev : SExpr → Nat → InterpState →
    Except Err (Value × InterpState)} :
    ∀ op args env s, isSpecialForm op = false →
      evalStep ev (SExpr.list (op :: args)) env s =
        evalCall ev op args env s := by
  intro op args env s hsp
  unfold evalStep
  rcases op with n | k | l2
  · rfl
  · unfold isSpecialForm at hsp
    simp only [Bool.or_eq_false_iff, beq_eq_false_iff_ne, ne_eq] at hsp
    obtain ⟨⟨⟨⟨h1, h2⟩, h3⟩, h4⟩, h5⟩ := hsp
    dsimp only
    rw [if_neg h1, if_neg h2, if_neg h3, if_neg h4, if_neg h5]
  · rfl

theorem evalStep_define (ev : SExpr → Nat → InterpState →
    Except Err (Value × InterpState)) (args : List SExpr) (env : Nat)
    (s : InterpState) :
    evalStep ev (SExpr.list (SExpr.sym "define" :: args)) env s =
      evalDefine ev args env s := by
  unfold evalStep
  dsimp only
  rw [if_pos rfl]

theorem evalStep_lambda (ev : SExpr → Nat → InterpState →
    Except Err (Value × InterpState)) (args : List SExpr) (env : Nat)
    (s : InterpState) :
    evalStep ev (SExpr.list (SExpr.sym "lambda" :: args)) env s =
      evalLambda args env s := by
  unfold evalStep
  dsimp only
  rw [if_neg (by decide), if_pos rfl]

theorem evalStep_let (ev : SExpr → Nat → InterpState →
    Except Err (Value × InterpState)) (args : List SExpr) (env : Nat)
    (s : InterpState) :
    evalStep ev (SExpr.list (SExpr.sym "let" :: args)) env s =
      evalLet ev args env s := by
  unfold evalStep
  dsimp only
  rw [if_neg (by decide), if_neg (by decide), if_neg (by decide), if_pos rfl]

/-- C1: scoping is lexical.  Generally: whenever an application head is not
a special-form keyword and the operator evaluates to a closure reference,
the call frame created for the application has the closure's `env_id` (its
defining frame) as parent; and a `lambda` records as `env_id` exactly the
frame in which the literal was evaluated.  Concretely: the program
`(define x 1) (define f (lambda () x)) (let ((x 2)) (f))` returns `1`, not
`2`, and its call frame (handle 2) has the root (handle 0) as parent even
though the caller was the `let` frame (handle 1). -/
theorem C1_lexical_scoping :
    (∀ fl op args env s v s' ci c s₁, env < s.envs.length → EnvsWF s.envs →
        isSpecialForm op = false →
        evalExpr fl op env s = .ok (.closure ci, s₁) →
        s₁.closures[ci]? = some c →
        evalExpr (fl + 1) (SExpr.list (op :: args)) env s = .ok (v, s') →
        (s'.envs[s₁.envs.length]?).map Environment.parent =
          some (some c.env_id)) ∧
    (∀ fl args env s v s',
        evalExpr (fl + 1) (SExpr.list (SExpr.sym "lambda" :: args)) env s =
          .ok (v, s') →
        (s'.closures[s.closures.length]?).map Closure.env_id = some env) ∧
    resultValue (runProgram 20 progLex 0) = .ok (.num 1) ∧
    (resultState (runProgram 20 progLex 0)).map
      (fun st => st.envs.map Environment.parent) =
      .ok [none, some 0, some 0] := by
  refine ⟨?_, ?_, by rfl, by rfl⟩
  · intro fl op args env s v s' ci c s₁ henv hwf hsp hop hci heval
    have h' : evalCall (evalExpr fl) op args env s = .ok (v, s') := by
      rw [← evalStep_not_special op args env s hsp]
      exact heval
    exact (evalCall_frame (evalExpr_exts fl) op args env s v s' ci c s₁
      henv hwf hop hci h').2.2.1
  · intro fl args env s v s' heval
    have h' : evalLambda args env s = .ok (v, s') := by
      rw [← evalStep_lambda (evalExpr fl) args env s]
      exact heval
    exact (evalLambda_record args env s v s' h').2.2.2.2

/-- C1 witness: evaluating `((lambda () 7))` in a fresh interpreter creates
call frame 1 whose parent is the root frame 0, the defining frame of the
closure. -/
theorem C1_lexical_scoping_witness :
    ((finLam7.envs[(1 : Nat)]?).map Environment.parent = some (some 0)) :=
  C1_lexical_scoping.1 3 opLam7 [] 0 (initState 0) (.num 7) finLam7 0
    closLam7 midLam7 (by decide) (envsWF_of_b (by rfl)) (by rfl) (by rfl)
    (by rfl) (by rfl)

/-- C2: `(let ((x 1) (y 2)) (set! x y) x)` returns `2`; afterwards the root
frame's binding table is exactly the builtins (no `x` or `y` was created
there), while the `let` frame holds `x ↦ 2` (mutated by `set!`) and
`y ↦ 2`. -/
theorem C2_let_set_frames :
    resultValue (runProgram 20 progLetSet 0) = .ok (.num 2) ∧
    (resultState (runProgram 20 progLetSet 0)).map
      (fun st => st.envs.map Environment.bindings) =
      .ok [builtinBindings, [("x", Value.num 2), ("y", Value.num 2)]] ∧
    getBinding builtinBindings "x" = none ∧
    getBinding builtinBindings "y" = none := by
  refine ⟨by rfl, by rfl, by rfl, by rfl⟩

/-- C3: for every well-formed store and valid frame handle, `lookup`
returns the nearest (most local) binding found by walking the parent chain
(`nearestOwner` is the first frame in `frameChain` owning the name);
`update` overwrites the binding in that owning frame — not necessarily the
frame it was called with — leaving every other frame untouched (`List.set`
at the owner); and both fail with `UnboundVariable(name)` exactly when no
frame in the chain up to and including the root binds the name. -/
theorem C3_lookup_update :
    ∀ envs h name w, EnvsWF envs → h < envs.length →
      (∀ i v, nearestOwner envs h name = some i →
          bindingAt envs i name = some v →
          lookupVar envs h name = .ok v) ∧
      (∀ i f, nearestOwner envs h name = some i → envs[i]? = some f →
          updateVar envs h name w = .ok (envs.set i (f.defineVar name w))) ∧
      (nearestOwner envs h name = none →
          lookupVar envs h name = .error (.unboundVariable name) ∧
          updateVar envs h name w = .error (.unboundVariable name)) ∧
      (nearestOwner envs h name = none ↔
          ∀ i ∈ frameChain envs h, bindingAt envs i name = none) := by
  intro envs h name w hwf hlen
  have hle := lookupStep_eq hwf envs.length h name hlen hlen
  have hue := updateStep_eq hwf envs.length h name w hlen hlen
  have hno := nearestOwner_eq_len hwf hlen name
  refine ⟨?_, ?_, ?_, ?_⟩
  · intro i v hni hbi
    show lookupStep envs envs.length h name = _
    rw [hle, hno, hni]
    dsimp only
    rw [hbi]
  · intro i f hni hf
    show updateStep envs envs.length h name w = _
    rw [hue, hno, hni]
    dsimp only
    rw [hf]
  · intro hni
    constructor
    · show lookupStep envs envs.length h name = _
      rw [hle, hno, hni]
    · show updateStep envs envs.length h name w = _
      rw [hue, hno, hni]
  · unfold nearestOwner
    rw [List.find?_eq_none]
    simp only [Option.not_isSome_iff_eq_none]

/-- C3 witness: in the two-frame demonstration store, looking up `x` from
the child frame finds the root's binding, and updating `x` from the child
mutates the root frame. -/
theorem C3_lookup_update_witness :
    lookupVar demoEnvs 1 "x" = .ok (.num 1) ∧
    updateVar demoEnvs 1 "x" (.num 5) =
      .ok (demoEnvs.set 0 (demoRoot.defineVar "x" (.num 5))) := by
  have h := C3_lookup_update demoEnvs 1 "x" (.num 5)
    (envsWF_of_b (by rfl)) (by decide)
  exact ⟨h.1 0 (.num 1) (by rfl) (by rfl), h.2.1 0 demoRoot (by rfl) (by rfl)⟩

/-- C4: in an application whose head is none of the five keywords, an
operator that evaluates to neither a builtin procedure nor a closure
reference makes evaluation fail with `NotCallable` carrying that value; in
particular `(1 2 3)` fails with `NotCallable(1)`. -/
theorem C4_not_callable :
    (∀ fl op args env s v s₁, isSpecialForm op = false →
        callableShape v = false →
        evalExpr fl op env s = .ok (v, s₁) →
        evalExpr (fl + 1) (SExpr.list (op :: args)) env s =
          .error (.notCallable v)) ∧
    resultValue (runProgram 10 progNotCallable 0) =
      .error (.notCallable (.num 1)) := by
  refine ⟨?_, by rfl⟩
  intro fl op args env s v s₁ hsp hcs hop
  show evalStep (evalExpr fl) (SExpr.list (op :: args)) env s = _
  rw [evalStep_not_special op args env s hsp]
  exact evalCall_notCallable op args env s v s₁ hop hcs

/-- C4 witness: `(1 2 3)` evaluated in a fresh interpreter fails with
`NotCallable(1)`. -/
theorem C4_not_callable_witness :
    evalExpr 2 (SExpr.list [SExpr.num 1, SExpr.num 2, SExpr.num 3]) 0
      (initState 0) = .error (.notCallable (.num 1)) :=
  C4_not_callable.1 1 (SExpr.num 1) [SExpr.num 2, SExpr.num 3] 0
    (initState 0) (.num 1) (initState 0) (by rfl) (by rfl) (by rfl)

/-- C5: the Environment Store is append-only with monotone handles:
`new_env` is total, assigns the next unused handle (the store length),
records the parent, and leaves existing frames untouched; every successful
evaluation from a valid frame extends the store (`StoreExtends`: no frame
removed, handles and parents immutable, closures immutable, counter in
step with the registry) and preserves well-formedness; a `let` evaluation
installs exactly its one new frame at the next handle with the outer frame
as parent; a `lambda` evaluation appends exactly one closure and touches
no frame; a closure invocation installs exactly its one new call frame at
the next handle. -/
theorem C5_store_append_only :
    (∀ s p, (newEnv s p).envs.length = s.envs.length + 1 ∧
        (newEnv s p).envs[s.envs.length]? =
          some { env_id := s.envs.length, parent := some p,
                 bindings := [] } ∧
        ∀ i, i < s.envs.length → (newEnv s p).envs[i]? = s.envs[i]?) ∧
    (∀ fl, EvalOK (evalExpr fl)) ∧
    (∀ fl bs bodyExprs env s v s', env < s.envs.length → EnvsWF s.envs →
        evalExpr (fl + 1) (SExpr.list (SExpr.sym "let" ::
          SExpr.list bs :: bodyExprs)) env s = .ok (v, s') →
        s.envs.length < s'.envs.length ∧
        (s'.envs[s.envs.length]?).map Environment.parent =
          some (some env) ∧
        (s'.envs[s.envs.length]?).map Environment.env_id =
          some s.envs.length) ∧
    (∀ fl args env s v s',
        evalExpr (fl + 1) (SExpr.list (SExpr.sym "lambda" :: args)) env s =
          .ok (v, s') →
        s'.closures.length = s.closures.length + 1 ∧ s'.envs = s.envs ∧
        s'.closure_counter = s.closure_counter + 1) ∧
    (∀ fl op args env s v s' ci c s₁, env < s.envs.length → EnvsWF s.envs →
        isSpecialForm op = false →
        evalExpr fl op env s = .ok (.closure ci, s₁) →
        s₁.closures[ci]? = some c →
        evalExpr (fl + 1) (SExpr.list (op :: args)) env s = .ok (v, s') →
        s₁.envs.length < s'.envs.length ∧
        (s'.envs[s₁.envs.length]?).map Environment.env_id =
          some s₁.envs.length) := by
  refine ⟨?_, evalExpr_exts, ?_, ?_, ?_⟩
  · intro s p
    exact ⟨newEnv_envs_length s p, newEnv_get_last s p,
      fun i hi => newEnv_get_lt hi⟩
  · intro fl bs bodyExprs env s v s' henv hwf heval
    have h' : evalLet (evalExpr fl) (SExpr.list bs :: bodyExprs) env s =
        .ok (v, s') := by
      rw [← evalStep_let (evalExpr fl) (SExpr.list bs :: bodyExprs) env s]
      exact heval
    exact evalLet_frame (evalExpr_exts fl) bs bodyExprs env s v s'
      henv hwf h'
  · intro fl args env s v s' heval
    have h' : evalLambda args env s = .ok (v, s') := by
      rw [← evalStep_lambda (evalExpr fl) args env s]
      exact heval
    obtain ⟨he, hl, hc, _, _⟩ := evalLambda_record args env s v s' h'
    exact ⟨hl, he, hc⟩
  · intro fl op args env s v s' ci c s₁ henv hwf hsp hop hci heval
    have h' : evalCall (evalExpr fl) op args env s = .ok (v, s') := by
      rw [← evalStep_not_special op args env s hsp]
      exact heval
    obtain ⟨_, hlt, _, hid⟩ := evalCall_frame (evalExpr_exts fl) op args
      env s v s' ci c s₁ henv hwf hop hci h'
    exact ⟨hlt, hid⟩

/-- C5 witness: evaluating `(let () 5)` in a fresh interpreter yields `5`,
extends the store by the one `let` frame, and keeps it well-formed. -/
theorem C5_store_append_only_witness :
    evalExpr 2 letDemoExpr 0 (initState 0) = .ok (.num 5, letDemoFinal) ∧
    StoreExtends (initState 0) letDemoFinal ∧
    EnvsWF letDemoFinal.envs := by
  refine ⟨by rfl, ?_, ?_⟩
  · exact (C5_store_append_only.2.1 2 letDemoExpr 0 (initState 0) (.num 5)
      letDemoFinal (by decide) (envsWF_of_b (by rfl)) (by rfl)).1
  · exact (C5_store_append_only.2.1 2 letDemoExpr 0 (initState 0) (.num 5)
      letDemoFinal (by decide) (envsWF_of_b (by rfl)) (by rfl)).2

/-- C6 counterexample: the claim says excess arguments are "still evaluated
in the caller's frame".  They are not: in
`(define g (lambda (a) a)) (g 1 z)` the excess argument `z` is unbound, so
evaluating it would abort with `UnboundVariable("z")`; instead the run
succeeds and returns `1` because `zip` truncates the pairing *before* the
argument expressions are evaluated. -/
theorem C6_arity_counterexample :
    resultValue (runProgram 20 progExtraArg 0) = .ok (.num 1) ∧
    resultValue (runProgram 20 progExtraArg 0) ≠
      .error (.unboundVariable "z") := by
  refine ⟨by rfl, ?_⟩
  intro h
  rw [show resultValue (runProgram 20 progExtraArg 0) = .ok (.num 1)
    from by rfl] at h
  exact Except.noConfusion h

/-- C6 (amended): on an arity mismatch the parameter/argument pairing
silently truncates to the shorter sequence and no arity error is raised;
excess argument expressions are *not* evaluated at all (neither their
values nor their side effects occur), and excess parameters are left
unbound in the call frame (an `UnboundVariable` error arises only if the
body uses one). -/
theorem C6_arity_truncation :
    resultValue (runProgram 20 progExtraArg 0) = .ok (.num 1) ∧
    (resultState (runProgram 20 progExtraArgEffect 0)).map
      (fun st => st.envs.map (fun f => f.bindings.map Prod.fst)) =
      .ok [["+", "-", "*", "/", "g"], ["a"]] ∧
    resultValue (runProgram 20 progMissingUnused 0) = .ok (.num 7) ∧
    resultValue (runProgram 20 progMissingUsed 0) =
      .error (.unboundVariable "b") := by
  refine ⟨by rfl, by rfl, by rfl, by rfl⟩

/-- C7 counterexample: the empty list evaluates to the `None`/nil value,
which is none of the three variants (`Number`, `ClosureReference`,
`BuiltinProcedure`) of the claimed taxonomy. -/
theorem C7_value_counterexample :
    evalExpr 1 (SExpr.list []) 0 (initState 0) = .ok (.nil, initState 0) ∧
    isSpecValue .nil = false := ⟨rfl, rfl⟩

/-- C7 (amended): every value flowing through evaluation is one of exactly
*four* variants — `Number`, `ClosureReference`, `BuiltinProcedure`, or the
`None`/nil value; nil is produced by the empty list and by an empty
`begin`, and it can be stored in a binding table (e.g. by
`(define x (begin))`). -/
theorem C7_value_taxonomy :
    evalExpr 1 (SExpr.list []) 0 (initState 0) = .ok (.nil, initState 0) ∧
    evalExpr 2 (SExpr.list [SExpr.sym "begin"]) 0 (initState 0) =
      .ok (.nil, initState 0) ∧
    (resultState (runProgram 20 progDefineNil 0)).map
      (fun st => st.envs.map Environment.bindings) =
      .ok [builtinBindings ++ [("x", Value.nil)]] ∧
    resultValue (runProgram 20 progDefineNil 0) = .ok .nil := by
  refine ⟨by rfl, by rfl, by rfl, by rfl⟩

/-- C8: the evaluator core is reimplemented identically across the three
source variants: for every fuel bound, syntax value, frame handle and
interpreter state, the evaluators of `Grapher2.py` and `Grapher3.py`
return exactly the result of `Grapher.py`'s — same value, same error, and
the same recorded frame and closure records. -/
theorem C8_variant_equivalence :
    ∀ fl e env s, evalExpr2 fl e env s = evalExpr fl e env s ∧
      evalExpr3 fl e env s = evalExpr fl e env s := by
  intro fl e env s
  rw [evalExpr2_eq fl, evalExpr3_eq fl]
  exact ⟨rfl, rfl⟩

/-- C9: closure handles come from the module-global counter, frame handles
are per-instance.  Every fresh interpreter's root frame has handle 0
regardless of the counter; running any program with the counter started
`k` higher yields the *same* values, errors and frame records with every
closure `id` shifted by `k` (`bumpRes`); a run from a fresh process
(counter 0) numbers its closures `0, 1, …` and leaves the counter equal to
the registry size, so a second instance run on the same program in the
same process continues numbering where the first stopped; concretely, two
instances running `(define f (lambda () 1))` record closure ids `[0]` and
`[1]` respectively while their frame stores are identical. -/
theorem C9_global_closure_counter :
    (∀ k, (initState k).envs.map Environment.env_id = [0] ∧
        (initState k).envs = (initState 0).envs) ∧
    (∀ fl prog k, runProgram fl prog k = bumpRes k (runProgram fl prog 0)) ∧
    (∀ k s, (bumpState k s).envs = s.envs ∧
        (bumpState k s).closures.map (fun c => c.id) =
          s.closures.map (fun c => c.id + k)) ∧
    (∀ fl prog v s', runProgram fl prog 0 = .ok (v, s') →
        (∀ (i : Nat) (c : Closure), s'.closures[i]? = some c → c.id = i) ∧
        s'.closure_counter = s'.closures.length) ∧
    ((runProgram 20 progOneClosure 0).map
        (fun p => p.2.closures.map (fun c => c.id)) = .ok [0] ∧
      (runProgram 20 progOneClosure 1).map
        (fun p => p.2.closures.map (fun c => c.id)) = .ok [1] ∧
      (runProgram 20 progOneClosure 0).map (fun p => p.2.envs) =
        (runProgram 20 progOneClosure 1).map (fun p => p.2.envs)) := by
  refine ⟨?_, runProgram_bump, ?_, ?_, by rfl, by rfl, by rfl⟩
  · intro k
    exact ⟨rfl, rfl⟩
  · intro k s
    refine ⟨rfl, ?_⟩
    show (s.closures.map (bumpClosure k)).map (fun c => c.id) = _
    rw [List.map_map]
    rfl
  · intro fl prog v s' h
    obtain ⟨ext, _⟩ := runProgram_exts h
    constructor
    · intro i c hic
      have := ext.new_ids i c hic (by
        show (initState 0).closures.length ≤ i
        simp [initState])
      simpa [initState] using this
    · have h1 := ext.counter_eq
      have h2 := ext.clos_le
      simp only [initState, List.length_nil] at h1
      omega

/-- C9 witness: the run of `(define f (lambda () 1))` from a fresh process
ends with the module-global counter equal to the closure-registry size. -/
theorem C9_global_closure_counter_witness :
    oneClosureFinal.closure_counter = oneClosureFinal.closures.length :=
  (C9_global_closure_counter.2.2.2.1 20 progOneClosure (Value.closure 0)
    oneClosureFinal (by rfl)).2

/-- C10: the `/` builtin is unguarded: `(/ 1 0)` aborts the run with the
native division-by-zero error, an error kind outside the spec's
`UnboundVariable`/`NotCallable` taxonomy, while `(/ 1 2)` performs true
fractional division and yields `0.5`, not integer division's `0`. -/
theorem C10_division :
    resultValue (runProgram 10 progDivZero 0) = .error .zeroDivision ∧
    specErrKind .zeroDivision = false ∧
    specErrKind (.unboundVariable "x") = true ∧
    specErrKind (.notCallable .nil) = true ∧
    resultValue (runProgram 10 progDivHalf 0) = .ok (.num (1 / 2)) ∧
    (1 / 2 : ℚ) = 0.5 ∧ (1 / 2 : ℚ) ≠ 0 := by
  refine ⟨by rfl, by rfl, by rfl, by rfl, by rfl, by norm_num, by norm_num⟩
